import Mathlib

/-
  Verification of decryptable/ascii-clock (src/clock.py).

  This file gives a shallow embedding of the clock's core components:
  the glyph library (ASCII_PATTERNS), the background grid builder
  (ASCIIClock.create_display_grid), the glyph compositor
  (get_highlight_positions / get_border_positions), the frame renderer
  (display_code_with_time), the size-warning display
  (display_size_warning) and the per-tick control flow of main.

  Python integers are modelled as Int where they can go negative
  (anchor rows/columns, grid coordinates) and as Nat where they are
  counts (loop ranges, terminal sizes).  Fallible Python operations
  (dict lookups that can raise KeyError, list indexing that can raise
  IndexError) are modelled with Option: a `none` result corresponds to
  the Python call raising an exception.
-/

set_option maxHeartbeats 1000000
set_option maxRecDepth 100000

namespace AsciiClock

/-! ## Glyph library: ASCII_PATTERNS from src/clock.py, lines 213-357 -/

def pattern0 : List (List Nat) :=
  [[1, 1, 1, 1, 1, 1, 1, 1, 1],
   [1, 1, 1, 0, 0, 0, 1, 1, 1],
   [1, 1, 0, 0, 0, 0, 0, 1, 1],
   [1, 1, 0, 0, 0, 0, 0, 1, 1],
   [1, 1, 0, 0, 0, 0, 0, 1, 1],
   [1, 1, 0, 0, 0, 0, 0, 1, 1],
   [1, 1, 0, 0, 0, 0, 0, 1, 1],
   [1, 1, 0, 0, 0, 0, 0, 1, 1],
   [1, 1, 0, 0, 0, 0, 0, 1, 1],
   [1, 1, 1, 0, 0, 0, 1, 1, 1],
   [1, 1, 1, 1, 1, 1, 1, 1, 1]]

def pattern1 : List (List Nat) :=
  [[0, 0, 0, 1, 1, 1, 0, 0, 0],
   [0, 0, 1, 1, 1, 1, 0, 0, 0],
   [0, 1, 1, 0, 1, 1, 0, 0, 0],
   [0, 0, 0, 0, 1, 1, 0, 0, 0],
   [0, 0, 0, 0, 1, 1, 0, 0, 0],
   [0, 0, 0, 0, 1, 1, 0, 0, 0],
   [0, 0, 0, 0, 1, 1, 0, 0, 0],
   [0, 0, 0, 0, 1, 1, 0, 0, 0],
   [0, 0, 0, 0, 1, 1, 0, 0, 0],
   [0, 0, 0, 0, 1, 1, 0, 0, 0],
   [1, 1, 1, 1, 1, 1, 1, 1, 1]]

def pattern2 : List (List Nat) :=
  [[1, 1, 1, 1, 1, 1, 1, 1, 1],
   [1, 1, 0, 0, 0, 0, 0, 1, 1],
   [0, 0, 0, 0, 0, 0, 0, 1, 1],
   [0, 0, 0, 0, 0, 0, 0, 1, 1],
   [0, 0, 0, 0, 0, 0, 1, 1, 1],
   [1, 1, 1, 1, 1, 1, 1, 1, 0],
   [1, 1, 1, 0, 0, 0, 0, 0, 0],
   [1, 1, 0, 0, 0, 0, 0, 0, 0],
   [1, 1, 0, 0, 0, 0, 0, 0, 0],
   [1, 1, 0, 0, 0, 0, 0, 1, 1],
   [1, 1, 1, 1, 1, 1, 1, 1, 1]]

def pattern3 : List (List Nat) :=
  [[1, 1, 1, 1, 1, 1, 1, 1, 1],
   [1, 1, 0, 0, 0, 0, 0, 1, 1],
   [0, 0, 0, 0, 0, 0, 0, 1, 1],
   [0, 0, 0, 0, 0, 0, 0, 1, 1],
   [0, 0, 0, 0, 0, 0, 1, 1, 1],
   [1, 1, 1, 1, 1, 1, 1, 1, 0],
   [0, 0, 0, 0, 0, 0, 1, 1, 1],
   [0, 0, 0, 0, 0, 0, 0, 1, 1],
   [0, 0, 0, 0, 0, 0, 0, 1, 1],
   [1, 1, 0, 0, 0, 0, 0, 1, 1],
   [1, 1, 1, 1, 1, 1, 1, 1, 1]]

def pattern4 : List (List Nat) :=
  [[1, 1, 0, 0, 0, 0, 1, 1, 1],
   [1, 1, 0, 0, 0, 0, 1, 1, 1],
   [1, 1, 0, 0, 0, 0, 1, 1, 1],
   [1, 1, 0, 0, 0, 0, 1, 1, 1],
   [1, 1, 0, 0, 0, 0, 1, 1, 1],
   [1, 1, 1, 1, 1, 1, 1, 1, 1],
   [0, 0, 0, 0, 0, 0, 1, 1, 1],
   [0, 0, 0, 0, 0, 0, 1, 1, 1],
   [0, 0, 0, 0, 0, 0, 1, 1, 1],
   [0, 0, 0, 0, 0, 0, 1, 1, 1],
   [0, 0, 0, 0, 0, 0, 1, 1, 1]]

def pattern5 : List (List Nat) :=
  [[1, 1, 1, 1, 1, 1, 1, 1, 1],
   [1, 1, 0, 0, 0, 0, 0, 0, 0],
   [1, 1, 0, 0, 0, 0, 0, 0, 0],
   [1, 1, 0, 0, 0, 0, 0, 0, 0],
   [1, 1, 0, 0, 0, 0, 0, 0, 0],
   [1, 1, 1, 1, 1, 1, 1, 1, 1],
   [0, 0, 0, 0, 0, 0, 0, 1, 1],
   [0, 0, 0, 0, 0, 0, 0, 1, 1],
   [0, 0, 0, 0, 0, 0, 0, 1, 1],
   [1, 1, 0, 0, 0, 0, 0, 1, 1],
   [1, 1, 1, 1, 1, 1, 1, 1, 1]]

def pattern6 : List (List Nat) :=
  [[1, 1, 1, 1, 1, 1, 1, 1, 1],
   [1, 1, 0, 0, 0, 0, 0, 1, 1],
   [1, 1, 0, 0, 0, 0, 0, 0, 0],
   [1, 1, 0, 0, 0, 0, 0, 0, 0],
   [1, 1, 0, 0, 0, 0, 0, 0, 0],
   [1, 1, 1, 1, 1, 1, 1, 1, 1],
   [1, 1, 0, 0, 0, 0, 0, 1, 1],
   [1, 1, 0, 0, 0, 0, 0, 1, 1],
   [1, 1, 0, 0, 0, 0, 0, 1, 1],
   [1, 1, 0, 0, 0, 0, 0, 1, 1],
   [1, 1, 1, 1, 1, 1, 1, 1, 1]]

def pattern7 : List (List Nat) :=
  [[1, 1, 1, 1, 1, 1, 1, 1, 1],
   [1, 1, 0, 0, 0, 0, 0, 1, 1],
   [0, 0, 0, 0, 0, 0, 0, 1, 1],
   [0, 0, 0, 0, 0, 0, 1, 1, 0],
   [0, 0, 0, 0, 0, 1, 1, 0, 0],
   [0, 0, 0, 0, 1, 1, 0, 0, 0],
   [0, 0, 0, 1, 1, 0, 0, 0, 0],
   [0, 0, 1, 1, 0, 0, 0, 0, 0],
   [0, 1, 1, 0, 0, 0, 0, 0, 0],
   [0, 1, 1, 0, 0, 0, 0, 0, 0],
   [0, 1, 1, 0, 0, 0, 0, 0, 0]]

def pattern8 : List (List Nat) :=
  [[1, 1, 1, 1, 1, 1, 1, 1, 1],
   [1, 1, 0, 0, 0, 0, 0, 1, 1],
   [1, 1, 0, 0, 0, 0, 0, 1, 1],
   [1, 1, 0, 0, 0, 0, 0, 1, 1],
   [1, 1, 0, 0, 0, 0, 0, 1, 1],
   [1, 1, 1, 1, 1, 1, 1, 1, 1],
   [1, 1, 0, 0, 0, 0, 0, 1, 1],
   [1, 1, 0, 0, 0, 0, 0, 1, 1],
   [1, 1, 0, 0, 0, 0, 0, 1, 1],
   [1, 1, 0, 0, 0, 0, 0, 1, 1],
   [1, 1, 1, 1, 1, 1, 1, 1, 1]]

def pattern9 : List (List Nat) :=
  [[1, 1, 1, 1, 1, 1, 1, 1, 1],
   [1, 1, 0, 0, 0, 0, 0, 1, 1],
   [1, 1, 0, 0, 0, 0, 0, 1, 1],
   [1, 1, 0, 0, 0, 0, 0, 1, 1],
   [1, 1, 0, 0, 0, 0, 0, 1, 1],
   [1, 1, 1, 1, 1, 1, 1, 1, 1],
   [0, 0, 0, 0, 0, 0, 0, 1, 1],
   [0, 0, 0, 0, 0, 0, 0, 1, 1],
   [0, 0, 0, 0, 0, 0, 0, 1, 1],
   [1, 1, 0, 0, 0, 0, 0, 1, 1],
   [1, 1, 1, 1, 1, 1, 1, 1, 1]]

def patternColon : List (List Nat) :=
  [[0, 0, 0, 0, 0, 0, 0, 0, 0],
   [0, 0, 0, 0, 0, 0, 0, 0, 0],
   [0, 0, 1, 1, 1, 1, 1, 0, 0],
   [0, 0, 1, 1, 1, 1, 1, 0, 0],
   [0, 0, 1, 1, 1, 1, 1, 0, 0],
   [0, 0, 0, 0, 0, 0, 0, 0, 0],
   [0, 0, 0, 0, 0, 0, 0, 0, 0],
   [0, 0, 1, 1, 1, 1, 1, 0, 0],
   [0, 0, 1, 1, 1, 1, 1, 0, 0],
   [0, 0, 1, 1, 1, 1, 1, 0, 0],
   [0, 0, 0, 0, 0, 0, 0, 0, 0]]
/-- `ASCII_PATTERNS[char]` of src/clock.py: the dict lookup; `none`
models Python raising `KeyError` for an unsupported character. -/
def ASCII_PATTERNS (c : Char) : Option (List (List Nat)) :=
  if c = '0' then some pattern0
  else if c = '1' then some pattern1
  else if c = '2' then some pattern2
  else if c = '3' then some pattern3
  else if c = '4' then some pattern4
  else if c = '5' then some pattern5
  else if c = '6' then some pattern6
  else if c = '7' then some pattern7
  else if c = '8' then some pattern8
  else if c = '9' then some pattern9
  else if c = ':' then some patternColon
  else none

/-- `pattern[row_idx][col_idx] == 1` of the Python code.  The patterns
are all 11 by 9, so the nested list accesses never go out of range in
the program; out-of-range access is mapped to `false`. -/
def patLit (pattern : List (List Nat)) (ro co : Nat) : Bool :=
  match pattern.get? ro with
  | some row =>
    match row.get? co with
    | some v => v == 1
    | none => false
  | none => false

/-! ## ANSI color constants: class Colors, src/clock.py lines 16-31 -/

namespace Colors

def CYAN : String := "\x1b[96m"
def GREEN : String := "\x1b[92m"
def YELLOW : String := "\x1b[93m"
def RED : String := "\x1b[91m"
def PURPLE : String := "\x1b[95m"
def BLUE : String := "\x1b[94m"
def WHITE : String := "\x1b[97m"
def GRAY : String := "\x1b[90m"
def DARK_GRAY : String := "\x1b[2m\x1b[90m"
def RESET : String := "\x1b[0m"
def BOLD : String := "\x1b[1m"

end Colors

/-- The per-slot color table of get_highlight_positions
(src/clock.py lines 366-375). -/
def colors : List String :=
  [Colors.RED ++ Colors.BOLD,
   Colors.RED ++ Colors.BOLD,
   Colors.YELLOW ++ Colors.BOLD,
   Colors.GREEN ++ Colors.BOLD,
   Colors.GREEN ++ Colors.BOLD,
   Colors.YELLOW ++ Colors.BOLD,
   Colors.CYAN ++ Colors.BOLD,
   Colors.CYAN ++ Colors.BOLD]

/-! ## Glyph compositor: get_highlight_positions, src/clock.py lines 360-398 -/

/-- The cells appended for one character of the time string by the inner
two loops of get_highlight_positions: every lit pattern cell whose
absolute position lies inside the grid, tagged with the slot color. -/
def charCells (pattern : List (List Nat)) (color : String)
    (start_row current_col gw gh : Int) : List (Int × Int × String) :=
  (List.range 11).flatMap fun ro =>
    (List.range 9).filterMap fun co =>
      if patLit pattern ro co then
        if 0 ≤ start_row + (ro : Int) ∧ start_row + (ro : Int) < gh ∧
           0 ≤ current_col + (co : Int) ∧ current_col + (co : Int) < gw then
          some (start_row + (ro : Int), current_col + (co : Int), color)
        else none
      else none

/-- The loop skeleton shared by get_highlight_positions and both passes
of get_border_positions:
`for char_idx, char in enumerate(time_str): pattern = ASCII_PATTERNS[char];
 ...; current_col += 12`.
`f` is the per-character body (producing the cells appended for that
character); `none` anywhere models a Python exception propagating out. -/
def charLoop (f : Nat → List (List Nat) → Int → Option (List α)) :
    List Char → Nat → Int → Option (List α)
  | [], _, _ => some []
  | ch :: rest, char_idx, current_col =>
    match ASCII_PATTERNS ch with
    | some pattern =>
      match f char_idx pattern current_col with
      | some here =>
        match charLoop f rest (char_idx + 1) (current_col + 12) with
        | some tail => some (here ++ tail)
        | none => none
      | none => none
    | none => none

/-- The char_idx / current_col loop of get_highlight_positions.  `none`
models a Python exception: KeyError from `ASCII_PATTERNS[char]` or
IndexError from `colors[char_idx]`. -/
def highlightLoop (start_row gw gh : Int)
    (ts : List Char) (char_idx : Nat) (current_col : Int) :
    Option (List (Int × Int × String)) :=
  charLoop
    (fun k pattern cc =>
      (colors.get? k).map fun color => charCells pattern color start_row cc gw gh)
    ts char_idx current_col

/-- get_highlight_positions(time_str, start_row, start_col, grid_width,
grid_height) of src/clock.py. -/
def get_highlight_positions (time_str : List Char)
    (start_row start_col gw gh : Int) : Option (List (Int × Int × String)) :=
  highlightLoop start_row gw gh time_str 0 start_col

/-! ## Glyph compositor: get_border_positions, src/clock.py lines 401-450 -/

/-- The cells collected for one character by the first pass of
get_border_positions (in-bounds lit pixels, no color). -/
def charCellsPos (pattern : List (List Nat))
    (start_row current_col gw gh : Int) : List (Int × Int) :=
  (List.range 11).flatMap fun ro =>
    (List.range 9).filterMap fun co =>
      if patLit pattern ro co then
        if 0 ≤ start_row + (ro : Int) ∧ start_row + (ro : Int) < gh ∧
           0 ≤ current_col + (co : Int) ∧ current_col + (co : Int) < gw then
          some (start_row + (ro : Int), current_col + (co : Int))
        else none
      else none

/-- First pass of get_border_positions: `digit_positions`, the set of
in-bounds lit pixels of the whole time string. -/
def digitPosLoop (start_row gw gh : Int)
    (ts : List Char) (current_col : Int) : Option (List (Int × Int)) :=
  charLoop
    (fun _ pattern cc => some (charCellsPos pattern start_row cc gw gh))
    ts 0 current_col

/-- The `dr`/`dc` offsets of the border scan: the 8 neighbors, with the
center (0, 0) skipped (src/clock.py lines 432-435). -/
def neighborOffsets : List (Int × Int) :=
  ([-1, 0, 1] : List Int).flatMap fun dr =>
    ([-1, 0, 1] : List Int).filterMap fun dc =>
      if dr = 0 ∧ dc = 0 then none else some (dr, dc)

/-- The border cells contributed by one character in the second pass of
get_border_positions.  Note the center pixel itself is NOT
bounds-checked here, exactly as in the source (lines 425-446): an
out-of-bounds lit pixel still contributes its in-bounds neighbors. -/
def borderCells (pattern : List (List Nat))
    (start_row current_col gw gh : Int)
    (digits : List (Int × Int)) : List (Int × Int) :=
  (List.range 11).flatMap fun ro =>
    (List.range 9).flatMap fun co =>
      if patLit pattern ro co then
        neighborOffsets.filterMap fun d =>
          if 0 ≤ start_row + (ro : Int) + d.1 ∧ start_row + (ro : Int) + d.1 < gh ∧
             0 ≤ current_col + (co : Int) + d.2 ∧ current_col + (co : Int) + d.2 < gw ∧
             (start_row + (ro : Int) + d.1, current_col + (co : Int) + d.2) ∉ digits then
            some (start_row + (ro : Int) + d.1, current_col + (co : Int) + d.2)
          else none
      else []

/-- Second pass of get_border_positions. -/
def borderLoop (start_row gw gh : Int) (digits : List (Int × Int))
    (ts : List Char) (current_col : Int) : Option (List (Int × Int)) :=
  charLoop
    (fun _ pattern cc => some (borderCells pattern start_row cc gw gh digits))
    ts 0 current_col

/-- get_border_positions(time_str, start_row, start_col, grid_width,
grid_height) of src/clock.py.  `list(set(border_positions))` removes
duplicates; membership is what the claims are about, so the result is
modelled with `List.dedup`. -/
def get_border_positions (time_str : List Char)
    (start_row start_col gw gh : Int) : Option (List (Int × Int)) :=
  match digitPosLoop start_row gw gh time_str start_col with
  | some digits =>
    match borderLoop start_row gw gh digits time_str start_col with
    | some borders => some borders.dedup
    | none => none
  | none => none

/-- The absolute positions of the lit pixels of one glyph, WITHOUT the
bounds check: these are the center pixels enumerated by the second pass
of get_border_positions (src/clock.py lines 425-429). -/
def charLitAbs (pattern : List (List Nat)) (start_row current_col : Int) :
    List (Int × Int) :=
  (List.range 11).flatMap fun ro =>
    (List.range 9).filterMap fun co =>
      if patLit pattern ro co then
        some (start_row + (ro : Int), current_col + (co : Int))
      else none

/-- All unclipped lit pixel positions of the whole time string, slot by
slot with the same column stride of 12. -/
def litAbsLoop (start_row : Int)
    (ts : List Char) (current_col : Int) : Option (List (Int × Int)) :=
  charLoop
    (fun _ pattern cc => some (charLitAbs pattern start_row cc))
    ts 0 current_col

/-- The unclipped lit pixel positions of a rendered time string. -/
def time_lit_abs (time_str : List Char) (start_row start_col : Int) :
    Option (List (Int × Int)) :=
  litAbsLoop start_row time_str start_col

/-- 8-adjacency of two grid positions: distinct, and each coordinate
differs by at most one. -/
def adj8 (p q : Int × Int) : Prop :=
  p ≠ q ∧ (p.1 - q.1).natAbs ≤ 1 ∧ (p.2 - q.2).natAbs ≤ 1

/-! ## Background grid builder: ASCIIClock.create_display_grid,
src/clock.py lines 193-209 -/

/-- The inner `for col in range(self.width)` loop of create_display_grid,
threading `char_index`.  Each cell: if `char_index < len(source)`, emit
`source[char_index]` and advance the cursor; otherwise reset the cursor
to 0 and emit `source[0]` WITHOUT advancing (the Python else-branch does
not increment after the reset).  `none` models the IndexError that
`source[0]` raises when the source is empty. -/
def fillRow (source : List Char) : Nat → Nat → Option (List Char × Nat)
  | 0, char_index => some ([], char_index)
  | w + 1, char_index =>
    if char_index < source.length then
      match source.get? char_index with
      | some c =>
        match fillRow source w (char_index + 1) with
        | some (row, idx) => some (c :: row, idx)
        | none => none
      | none => none
    else
      match source.get? 0 with
      | some c =>
        match fillRow source w 0 with
        | some (row, idx) => some (c :: row, idx)
        | none => none
      | none => none

/-- The outer `for row in range(self.height)` loop of
create_display_grid. -/
def fillGrid (source : List Char) (width : Nat) :
    Nat → Nat → Option (List (List Char))
  | 0, _ => some []
  | h + 1, char_index =>
    match fillRow source width char_index with
    | some (row, idx) =>
      match fillGrid source width h idx with
      | some rest => some (row :: rest)
      | none => none
    | none => none

/-- ASCIIClock.create_display_grid of src/clock.py: fills a
height x width grid from the source text, starting the cursor at 0. -/
def create_display_grid (source_code : List Char) (height width : Nat) :
    Option (List (List Char)) :=
  fillGrid source_code width height 0

/-- The character stream the builder actually emits: one verbatim copy
of the source, followed by copies of (source[0] :: source) -- the wrap
re-reads index 0 without advancing, so the first character is doubled
at every wrap.  `n` copies are always enough for `n` cells. -/
def wrapStream (source : List Char) (n : Nat) : List Char :=
  source ++ (List.replicate n (source.headD ' ' :: source)).flatten

/-! ## Frame renderer: display_code_with_time, src/clock.py lines 453-477 -/

/-- The `highlight_dict` built by display_code_with_time: highlight
entries re-filtered against the grid's own dimensions.  Python's chained
`0 <= row < len(grid) and 0 <= col < len(grid[0])` short-circuits, so
`grid[0]` is only reached when `row < len(grid)` (grid nonempty); for an
empty grid the condition is false either way, which the model matches. -/
def highlight_dict (grid : List (List Char))
    (highlight_positions : List (Int × Int × String)) :
    List ((Int × Int) × String) :=
  highlight_positions.filterMap fun t =>
    if 0 ≤ t.1 ∧ t.1 < (grid.length : Int) ∧ 0 ≤ t.2.1 ∧
        t.2.1 < ((grid.headD []).length : Int) then
      some ((t.1, t.2.1), t.2.2)
    else none

/-- Python dict lookup after sequential insertion: the LAST binding of a
key wins. -/
def dictGet (d : List ((Int × Int) × String)) (k : Int × Int) : Option String :=
  d.foldl (fun acc entry => if entry.1 = k then some entry.2 else acc) none

/-- One rendered cell of display_code_with_time: a self-contained color
directive, the grid character, then a reset. -/
def cellStr (hd : List ((Int × Int) × String)) (border_set : List (Int × Int))
    (row_idx col_idx : Nat) (ch : Char) : String :=
  match dictGet hd ((row_idx : Int), (col_idx : Int)) with
  | some color => color ++ ch.toString ++ Colors.RESET
  | none =>
    if ((row_idx : Int), (col_idx : Int)) ∈ border_set then
      Colors.GRAY ++ ch.toString ++ Colors.RESET
    else
      Colors.DARK_GRAY ++ ch.toString ++ Colors.RESET

/-- display_code_with_time of src/clock.py: one printed line per grid
row, each line the concatenation of its colored cells. -/
def display_code_with_time (grid : List (List Char))
    (highlight_positions : List (Int × Int × String))
    (border_positions : List (Int × Int)) : List String :=
  grid.enum.map fun rowp =>
    String.join (rowp.2.enum.map fun cellp =>
      cellStr (highlight_dict grid highlight_positions) border_positions
        rowp.1 cellp.1 cellp.2)

/-- The layer precedence of the renderer stated directly on the two
position lists: highlight (per-slot color) beats border (fixed muted
GRAY) beats background (fixed dim DARK_GRAY). -/
def layerColor (highlight_positions : List (Int × Int × String))
    (border_positions : List (Int × Int)) (row_idx col_idx : Nat) : String :=
  match highlight_positions.find? (fun t =>
      t.1 == (row_idx : Int) && t.2.1 == (col_idx : Int)) with
  | some t => t.2.2
  | none =>
    if ((row_idx : Int), (col_idx : Int)) ∈ border_positions then Colors.GRAY
    else Colors.DARK_GRAY

/-! ## Size warning: display_size_warning, src/clock.py lines 480-533 -/

/-- CPython's str.center: pad with spaces to the given width; the extra
space goes left exactly when both the margin and the width are odd
(left = marg / 2 + (marg & width & 1)). -/
def pyCenter (s : String) (width : Nat) : String :=
  if width ≤ s.length then s
  else
    String.mk (List.replicate
        ((width - s.length) / 2 +
          (if (width - s.length) % 2 = 1 ∧ width % 2 = 1 then 1 else 0)) ' ') ++
      s ++
      String.mk (List.replicate
        ((width - s.length) -
          ((width - s.length) / 2 +
            (if (width - s.length) % 2 = 1 ∧ width % 2 = 1 then 1 else 0))) ' ')

/-- `needle` occurs at the start of `hay`. -/
def leadsWith : List Char → List Char → Bool
  | [], _ => true
  | _ :: _, [] => false
  | a :: as, b :: bs => a == b && leadsWith as bs

/-- Python's `needle in hay` on strings: `needle` occurs contiguously
somewhere in `hay`. -/
def containsSeq (needle : List Char) : List Char → Bool
  | [] => leadsWith needle []
  | b :: rest => leadsWith needle (b :: rest) || containsSeq needle rest

/-- Python's `sub in s` membership test on strings. -/
def strContains (hay needle : String) : Bool :=
  containsSeq needle.toList hay.toList

/-- The warning_lines list of display_size_warning after the os_info
splice `warning_lines[:5] + os_info + warning_lines[5:]`. -/
def warningLines (cols lines mw mh : Nat) (system : String)
    (supports_resize_signal : Bool) : List String :=
  (["",
    "⚠️  TERMINAL TOO SMALL ⚠️",
    "",
    "Current size: " ++ toString cols ++ " x " ++ toString lines,
    "Required minimum: " ++ toString mw ++ " x " ++ toString mh,
    "",
    "Please resize your terminal window",
    "to view the ASCII clock properly.",
    "",
    "The clock will appear automatically",
    "when the terminal size is adequate.",
    ""].take 5) ++
  (["Operating System: " ++ system, ""] ++
    (if supports_resize_signal then []
     else ["⚠️  Auto-resize detection not supported on this OS",
           "Manual terminal refresh may be needed after resizing",
           ""])) ++
  (["",
    "⚠️  TERMINAL TOO SMALL ⚠️",
    "",
    "Current size: " ++ toString cols ++ " x " ++ toString lines,
    "Required minimum: " ++ toString mw ++ " x " ++ toString mh,
    "",
    "Please resize your terminal window",
    "to view the ASCII clock properly.",
    "",
    "The clock will appear automatically",
    "when the terminal size is adequate.",
    ""].drop 5)

/-- The per-line color chosen by display_size_warning's if/elif chain. -/
def warnLineColor (line : String) : String :=
  if strContains line "⚠️" && strContains line "TERMINAL TOO SMALL" then
    Colors.YELLOW ++ Colors.BOLD
  else if strContains line "Current size:" || strContains line "Required minimum:" then
    Colors.RED
  else if strContains line "Operating System:" then Colors.CYAN
  else if strContains line "Auto-resize detection" ||
      strContains line "Manual terminal refresh" then
    Colors.YELLOW
  else Colors.WHITE

/-- display_size_warning of src/clock.py, as the list of
(cursor row, printed text) pairs it emits: lines are centered to the
terminal width, and only lines with start_row + i < lines are printed. -/
def display_size_warning_output (cols lines mw mh : Nat) (system : String)
    (supports_resize_signal : Bool) : List (Nat × String) :=
  ((warningLines cols lines mw mh system supports_resize_signal).enum).filterMap
    fun p =>
      if max 1 (lines / 2 -
          (warningLines cols lines mw mh system supports_resize_signal).length / 2) +
          p.1 < lines then
        some (max 1 (lines / 2 -
            (warningLines cols lines mw mh system supports_resize_signal).length / 2) +
          p.1,
          warnLineColor p.2 ++ pyCenter p.2 cols ++ Colors.RESET)
      else none

/-! ## Adaptation controller: ASCIIClock state and the main loop body,
src/clock.py lines 61-98, 147-191 and 536-580 -/

/-- The mutable fields of ASCIIClock that the tick loop touches.  The
minimums are the constants min_width = 100, min_height = 25 set in
__init__. -/
structure ClockState where
  source_code : List Char
  grid : List (List Char)
  width : Nat
  height : Nat
  terminal_resized : Bool
  supports_resize_signal : Bool

def min_width : Nat := 100

def min_height : Nat := 25

/-- ASCIIClock.get_terminal_size: the external size query result is an
Option; any failure (the bare except) yields the fallback (80, 24). -/
def get_terminal_size (query : Option (Nat × Nat)) : Nat × Nat :=
  match query with
  | some size => size
  | none => (80, 24)

/-- ASCIIClock.is_terminal_size_adequate. -/
def is_terminal_size_adequate (query : Option (Nat × Nat)) : Bool :=
  min_width ≤ (get_terminal_size query).1 && min_height ≤ (get_terminal_size query).2

/-- ASCIIClock.update_display_parameters: width/height are the terminal
size minus 2; the background text (get_minified_source, an external
provider) is the `filler` parameter; the grid is rebuilt.  `none`
models the exception raised by create_display_grid on empty filler. -/
def update_display_parameters (st : ClockState) (filler : List Char)
    (query : Option (Nat × Nat)) : Option ClockState :=
  match create_display_grid filler ((get_terminal_size query).2 - 2)
      ((get_terminal_size query).1 - 2) with
  | some grid =>
    some { st with
      source_code := filler,
      width := (get_terminal_size query).1 - 2,
      height := (get_terminal_size query).2 - 2,
      grid := grid }
  | none => none

/-- What one pass of the main loop emits to the terminal. -/
inductive TickOutput where
  | warning : List (Nat × String) → TickOutput
  | frame : List String → TickOutput

/-- The adequacy check and rendering half of the loop body (src/clock.py
lines 551-577), run on the state `st2` the tick has settled on;
`didRebuild` records which branch the first half took. -/
def tickRender (st2 : ClockState) (query : Option (Nat × Nat)) (now : List Char)
    (system : String) (didRebuild : Bool) :
    Option (ClockState × TickOutput × Bool) :=
  if is_terminal_size_adequate query then
    match get_highlight_positions now (max 1 ((st2.height : Int) / 2 - 5))
        (max 5 (((st2.width : Int) - ((8 * 12 - 3 : Nat) : Int)) / 2))
        (st2.width : Int) (st2.height : Int),
      get_border_positions now (max 1 ((st2.height : Int) / 2 - 5))
        (max 5 (((st2.width : Int) - ((8 * 12 - 3 : Nat) : Int)) / 2))
        (st2.width : Int) (st2.height : Int) with
    | some hl, some bd =>
      some (st2, TickOutput.frame (display_code_with_time st2.grid hl bd),
        didRebuild)
    | _, _ => none
  else
    some (st2, TickOutput.warning
      (display_size_warning_output (get_terminal_size query).1
        (get_terminal_size query).2 min_width min_height system
        st2.supports_resize_signal),
      didRebuild)

/-- One pass of the `while True` body of main (src/clock.py lines
544-580).  `signalArrived` is the asynchronous SIGWINCH notification
that sets terminal_resized between ticks (_handle_resize); `query` is
this tick's terminal-size query result; `now` is the formatted HH:MM:SS
string; `filler` is the background text provider's output
(get_minified_source).  The result is the new state, the emitted
output, and whether this tick rebuilt the display parameters (took the
update_display_parameters branch); `none` models an uncaught
exception. -/
def tick (st : ClockState) (query : Option (Nat × Nat)) (now : List Char)
    (filler : List Char) (system : String) (signalArrived : Bool) :
    Option (ClockState × TickOutput × Bool) :=
  if (if signalArrived then { st with terminal_resized := true }
      else st).terminal_resized ||
      !(if signalArrived then { st with terminal_resized := true }
        else st).supports_resize_signal then
    match update_display_parameters
        (if signalArrived then { st with terminal_resized := true } else st)
        filler query with
    | none => none
    | some st1 =>
      tickRender { st1 with terminal_resized := false } query now system true
  else
    tickRender (if signalArrived then { st with terminal_resized := true }
      else st) query now system false

/-- The output component of a tick result. -/
def tickOutput (r : Option (ClockState × TickOutput × Bool)) : Option TickOutput :=
  r.map fun t => t.2.1

/-- The new-state component of a tick result. -/
def tickState (r : Option (ClockState × TickOutput × Bool)) : Option ClockState :=
  r.map fun t => t.1

/-- The did-rebuild component of a tick result. -/
def tickRebuilt (r : Option (ClockState × TickOutput × Bool)) : Option Bool :=
  r.map fun t => t.2.2

/-- Whether a tick output is the size warning (and hence no digits were
rendered). -/
def isWarning : Option TickOutput → Bool
  | some (TickOutput.warning _) => true
  | _ => false

/-! ## Membership lemmas for the compositor -/

theorem mem_charCells {pattern : List (List Nat)} {color : String}
    {sr cc gw gh : Int} {x : Int × Int × String} :
    x ∈ charCells pattern color sr cc gw gh ↔
    ∃ ro co : Nat, ro < 11 ∧ co < 9 ∧ patLit pattern ro co = true ∧
      0 ≤ sr + (ro : Int) ∧ sr + (ro : Int) < gh ∧
      0 ≤ cc + (co : Int) ∧ cc + (co : Int) < gw ∧
      x = (sr + (ro : Int), cc + (co : Int), color) := by
  simp only [charCells, List.mem_flatMap, List.mem_filterMap, List.mem_range]
  constructor
  · rintro ⟨ro, hro, co, hco, heq⟩
    split_ifs at heq with h1 h2
    exact ⟨ro, co, hro, hco, h1, h2.1, h2.2.1, h2.2.2.1, h2.2.2.2,
      (Option.some_inj.mp heq).symm⟩
  · rintro ⟨ro, co, hro, hco, hlit, hb1, hb2, hb3, hb4, rfl⟩
    exact ⟨ro, hro, co, hco, by simp [hlit, hb1, hb2, hb3, hb4]⟩

theorem mem_charCellsPos {pattern : List (List Nat)}
    {sr cc gw gh : Int} {x : Int × Int} :
    x ∈ charCellsPos pattern sr cc gw gh ↔
    ∃ ro co : Nat, ro < 11 ∧ co < 9 ∧ patLit pattern ro co = true ∧
      0 ≤ sr + (ro : Int) ∧ sr + (ro : Int) < gh ∧
      0 ≤ cc + (co : Int) ∧ cc + (co : Int) < gw ∧
      x = (sr + (ro : Int), cc + (co : Int)) := by
  simp only [charCellsPos, List.mem_flatMap, List.mem_filterMap, List.mem_range]
  constructor
  · rintro ⟨ro, hro, co, hco, heq⟩
    split_ifs at heq with h1 h2
    exact ⟨ro, co, hro, hco, h1, h2.1, h2.2.1, h2.2.2.1, h2.2.2.2,
      (Option.some_inj.mp heq).symm⟩
  · rintro ⟨ro, co, hro, hco, hlit, hb1, hb2, hb3, hb4, rfl⟩
    exact ⟨ro, hro, co, hco, by simp [hlit, hb1, hb2, hb3, hb4]⟩

theorem mem_charLitAbs {pattern : List (List Nat)}
    {sr cc : Int} {x : Int × Int} :
    x ∈ charLitAbs pattern sr cc ↔
    ∃ ro co : Nat, ro < 11 ∧ co < 9 ∧ patLit pattern ro co = true ∧
      x = (sr + (ro : Int), cc + (co : Int)) := by
  simp only [charLitAbs, List.mem_flatMap, List.mem_filterMap, List.mem_range]
  constructor
  · rintro ⟨ro, hro, co, hco, heq⟩
    split_ifs at heq with h1
    exact ⟨ro, co, hro, hco, h1, (Option.some_inj.mp heq).symm⟩
  · rintro ⟨ro, co, hro, hco, hlit, rfl⟩
    exact ⟨ro, hro, co, hco, by simp [hlit]⟩

theorem mem_borderCells {pattern : List (List Nat)}
    {sr cc gw gh : Int} {digits : List (Int × Int)} {x : Int × Int} :
    x ∈ borderCells pattern sr cc gw gh digits ↔
    ∃ ro co : Nat, ro < 11 ∧ co < 9 ∧ patLit pattern ro co = true ∧
      ∃ d ∈ neighborOffsets,
        0 ≤ sr + (ro : Int) + d.1 ∧ sr + (ro : Int) + d.1 < gh ∧
        0 ≤ cc + (co : Int) + d.2 ∧ cc + (co : Int) + d.2 < gw ∧
        (sr + (ro : Int) + d.1, cc + (co : Int) + d.2) ∉ digits ∧
        x = (sr + (ro : Int) + d.1, cc + (co : Int) + d.2) := by
  simp only [borderCells, List.mem_flatMap, List.mem_range]
  constructor
  · rintro ⟨ro, hro, co, hco, hx⟩
    split_ifs at hx with h1
    · rcases List.mem_filterMap.mp hx with ⟨d, hd, heq⟩
      split_ifs at heq with h2
      exact ⟨ro, co, hro, hco, h1, d, hd, h2.1, h2.2.1, h2.2.2.1, h2.2.2.2.1,
        h2.2.2.2.2, (Option.some_inj.mp heq).symm⟩
    · simp at hx
  · rintro ⟨ro, co, hro, hco, hlit, d, hd, hb1, hb2, hb3, hb4, hnd, rfl⟩
    refine ⟨ro, hro, co, hco, ?_⟩
    rw [if_pos hlit]
    exact List.mem_filterMap.mpr ⟨d, hd, by simp [hb1, hb2, hb3, hb4, hnd]⟩

/-- The neighbor offset list is exactly the offsets of distance at most
one in each coordinate, other than (0, 0). -/
theorem mem_neighborOffsets {d : Int × Int} :
    d ∈ neighborOffsets ↔ d ≠ (0, 0) ∧ d.1.natAbs ≤ 1 ∧ d.2.natAbs ≤ 1 := by
  have henum : neighborOffsets =
      [(-1, -1), (-1, 0), (-1, 1), (0, -1), (0, 1), (1, -1), (1, 0), (1, 1)] := by
    rfl
  rw [henum]
  obtain ⟨a, b⟩ := d
  simp only [List.mem_cons, List.not_mem_nil, or_false, Prod.mk.injEq, ne_eq,
    not_and]
  omega

/-- adj8 in terms of the scanned neighbor offsets. -/
theorem adj8_iff_offset {p q : Int × Int} :
    adj8 p q ↔ ∃ d ∈ neighborOffsets, p = (q.1 + d.1, q.2 + d.2) := by
  constructor
  · rintro ⟨hne, h1, h2⟩
    refine ⟨(p.1 - q.1, p.2 - q.2), mem_neighborOffsets.mpr ⟨?_, h1, h2⟩, by
      simp [Prod.ext_iff]⟩
    intro hcontra
    apply hne
    rw [Prod.mk.injEq] at hcontra
    have e1 : p.1 = q.1 := by omega
    have e2 : p.2 = q.2 := by omega
    exact Prod.ext e1 e2
  · rintro ⟨d, hd, rfl⟩
    rcases mem_neighborOffsets.mp hd with ⟨hne, h1, h2⟩
    refine ⟨?_, by simp; omega, by simp; omega⟩
    intro hcontra
    apply hne
    rw [Prod.mk.injEq] at hcontra
    have e1 : d.1 = 0 := by omega
    have e2 : d.2 = 0 := by omega
    exact Prod.ext e1 e2

/-- Membership in the result of charLoop: an element comes from the body
of some character index j, processed with column current_col + 12 * j
and slot char_idx + j. -/
theorem charLoop_mem {α : Type} {f : Nat → List (List Nat) → Int → Option (List α)}
    {ts : List Char} {k : Nat} {cc : Int} {l : List α}
    (h : charLoop f ts k cc = some l) (x : α) :
    x ∈ l ↔ ∃ j : Nat, ∃ hj : j < ts.length,
      ∃ pattern, ASCII_PATTERNS (ts.get ⟨j, hj⟩) = some pattern ∧
      ∃ here, f (k + j) pattern (cc + 12 * (j : Int)) = some here ∧ x ∈ here := by
  induction ts generalizing k cc l with
  | nil =>
    simp only [charLoop, Option.some_inj] at h
    subst h
    simp
  | cons ch rest ih =>
    cases hpat : ASCII_PATTERNS ch with
    | none => simp [charLoop, hpat] at h
    | some pattern =>
      cases hf : f k pattern cc with
      | none => simp [charLoop, hpat, hf] at h
      | some here =>
        cases hrec : charLoop f rest (k + 1) (cc + 12) with
        | none => simp [charLoop, hpat, hf, hrec] at h
        | some tail =>
          have hl : l = here ++ tail := by
            simp only [charLoop, hpat, hf, hrec, Option.some_inj] at h
            exact h.symm
          subst hl
          rw [List.mem_append, ih hrec]
          constructor
          · rintro (hx | ⟨j, hj, pat, hp, hh, hfh, hx⟩)
            · exact ⟨0, by simp, pattern, by simpa using hpat, here,
                by simpa using hf, hx⟩
            · refine ⟨j + 1, by simpa using Nat.succ_lt_succ hj, pat,
                by simpa using hp, hh, ?_, hx⟩
              have e1 : k + (j + 1) = k + 1 + j := by omega
              rw [e1]
              push_cast
              have e2 : cc + 12 * ((j : Int) + 1) = cc + 12 + 12 * (j : Int) := by
                ring
              rw [e2]
              exact hfh
          · rintro ⟨j, hj, pat, hp, hh, hfh, hx⟩
            cases j with
            | zero =>
              left
              have hpe : pat = pattern := by
                have hp' : ASCII_PATTERNS ch = some pat := by simpa using hp
                rw [hp'] at hpat
                exact Option.some_inj.mp hpat
              subst hpe
              have hfe : f k pat cc = some hh := by simpa using hfh
              rw [hf] at hfe
              have hhe := Option.some_inj.mp hfe
              subst hhe
              exact hx
            | succ j' =>
              right
              have hj' : j' < rest.length := by
                simp only [List.length_cons] at hj
                omega
              refine ⟨j', hj', pat, by simpa using hp, hh, ?_, hx⟩
              have e1 : k + 1 + j' = k + (j' + 1) := by omega
              have hcol : cc + 12 + 12 * (j' : Int) = cc + 12 * ((j' + 1 : Nat) : Int) := by
                push_cast
                ring
              rw [e1, hcol]
              exact hfh

/-- charLoop succeeds when every character is in the glyph table and
every per-character body succeeds. -/
theorem charLoop_isSome {α : Type} {f : Nat → List (List Nat) → Int → Option (List α)}
    {ts : List Char} {k : Nat} {cc : Int}
    (hpats : ∀ c ∈ ts, (ASCII_PATTERNS c).isSome = true)
    (hf : ∀ (j : Nat) (pattern : List (List Nat)) (c : Int),
      j < ts.length → (f (k + j) pattern c).isSome = true) :
    (charLoop f ts k cc).isSome = true := by
  induction ts generalizing k cc with
  | nil => simp [charLoop]
  | cons ch rest ih =>
    have h1 : (ASCII_PATTERNS ch).isSome = true := hpats ch (by simp)
    rcases Option.isSome_iff_exists.mp h1 with ⟨pattern, hp⟩
    have h2 : (f k pattern cc).isSome = true := by
      have := hf 0 pattern cc (by simp)
      simpa using this
    rcases Option.isSome_iff_exists.mp h2 with ⟨here, hh⟩
    have h3 : (charLoop f rest (k + 1) (cc + 12)).isSome = true := by
      apply ih
      · intro c hc
        exact hpats c (by simp [hc])
      · intro j pattern' c hj
        have hsucc := hf (j + 1) pattern' c (by simpa using Nat.succ_lt_succ hj)
        have e : k + (j + 1) = k + 1 + j := by omega
        rwa [e] at hsucc
    rcases Option.isSome_iff_exists.mp h3 with ⟨tail, ht⟩
    simp [charLoop, hp, hh, ht]

theorem get_highlight_positions_mem {ts : List Char} {sr sc gw gh : Int}
    {l : List (Int × Int × String)}
    (h : get_highlight_positions ts sr sc gw gh = some l) (x : Int × Int × String) :
    x ∈ l ↔ ∃ j : Nat, ∃ hj : j < ts.length,
      ∃ pattern, ASCII_PATTERNS (ts.get ⟨j, hj⟩) = some pattern ∧
      ∃ color, colors.get? j = some color ∧
      x ∈ charCells pattern color sr (sc + 12 * (j : Int)) gw gh := by
  unfold get_highlight_positions highlightLoop at h
  rw [charLoop_mem h x]
  constructor
  · rintro ⟨j, hj, pattern, hp, here, hf, hx⟩
    simp only [Nat.zero_add] at hf
    rcases Option.map_eq_some'.mp hf with ⟨color, hc, hcells⟩
    rw [← hcells] at hx
    exact ⟨j, hj, pattern, hp, color, hc, hx⟩
  · rintro ⟨j, hj, pattern, hp, color, hc, hx⟩
    refine ⟨j, hj, pattern, hp, charCells pattern color sr (sc + 12 * (j : Int)) gw gh,
      ?_, hx⟩
    simp only [Nat.zero_add]
    exact Option.map_eq_some'.mpr ⟨color, hc, rfl⟩

theorem digitPosLoop_mem {ts : List Char} {sr cc gw gh : Int}
    {l : List (Int × Int)}
    (h : digitPosLoop sr gw gh ts cc = some l) (x : Int × Int) :
    x ∈ l ↔ ∃ j : Nat, ∃ hj : j < ts.length,
      ∃ pattern, ASCII_PATTERNS (ts.get ⟨j, hj⟩) = some pattern ∧
      x ∈ charCellsPos pattern sr (cc + 12 * (j : Int)) gw gh := by
  unfold digitPosLoop at h
  rw [charLoop_mem h x]
  constructor
  · rintro ⟨j, hj, pattern, hp, here, hf, hx⟩
    simp only [Option.some_inj] at hf
    rw [← hf] at hx
    exact ⟨j, hj, pattern, hp, hx⟩
  · rintro ⟨j, hj, pattern, hp, hx⟩
    exact ⟨j, hj, pattern, hp, _, rfl, hx⟩

theorem borderLoop_mem {ts : List Char} {sr cc gw gh : Int}
    {digits l : List (Int × Int)}
    (h : borderLoop sr gw gh digits ts cc = some l) (x : Int × Int) :
    x ∈ l ↔ ∃ j : Nat, ∃ hj : j < ts.length,
      ∃ pattern, ASCII_PATTERNS (ts.get ⟨j, hj⟩) = some pattern ∧
      x ∈ borderCells pattern sr (cc + 12 * (j : Int)) gw gh digits := by
  unfold borderLoop at h
  rw [charLoop_mem h x]
  constructor
  · rintro ⟨j, hj, pattern, hp, here, hf, hx⟩
    simp only [Option.some_inj] at hf
    rw [← hf] at hx
    exact ⟨j, hj, pattern, hp, hx⟩
  · rintro ⟨j, hj, pattern, hp, hx⟩
    exact ⟨j, hj, pattern, hp, _, rfl, hx⟩

theorem litAbsLoop_mem {ts : List Char} {sr cc : Int} {l : List (Int × Int)}
    (h : litAbsLoop sr ts cc = some l) (x : Int × Int) :
    x ∈ l ↔ ∃ j : Nat, ∃ hj : j < ts.length,
      ∃ pattern, ASCII_PATTERNS (ts.get ⟨j, hj⟩) = some pattern ∧
      x ∈ charLitAbs pattern sr (cc + 12 * (j : Int)) := by
  unfold litAbsLoop at h
  rw [charLoop_mem h x]
  constructor
  · rintro ⟨j, hj, pattern, hp, here, hf, hx⟩
    simp only [Option.some_inj] at hf
    rw [← hf] at hx
    exact ⟨j, hj, pattern, hp, hx⟩
  · rintro ⟨j, hj, pattern, hp, hx⟩
    exact ⟨j, hj, pattern, hp, _, rfl, hx⟩

/-- Splitting a successful get_border_positions run into its two passes. -/
theorem get_border_positions_eq {ts : List Char} {sr sc gw gh : Int}
    {bd : List (Int × Int)}
    (h : get_border_positions ts sr sc gw gh = some bd) :
    ∃ digits borders, digitPosLoop sr gw gh ts sc = some digits ∧
      borderLoop sr gw gh digits ts sc = some borders ∧ bd = borders.dedup := by
  unfold get_border_positions at h
  split at h
  next digits hd =>
    split at h
    next borders hb =>
      simp only [Option.some_inj] at h
      exact ⟨digits, borders, hd, hb, h.symm⟩
    next hb => cases h
  next hd => cases h

/-- If charLoop succeeded, the body call of every character succeeded. -/
theorem charLoop_body_isSome {α : Type}
    {f : Nat → List (List Nat) → Int → Option (List α)}
    {ts : List Char} {k : Nat} {cc : Int} {l : List α}
    (h : charLoop f ts k cc = some l) :
    ∀ (j : Nat) (hj : j < ts.length) (pattern : List (List Nat)),
      ASCII_PATTERNS (ts.get ⟨j, hj⟩) = some pattern →
      (f (k + j) pattern (cc + 12 * (j : Int))).isSome = true := by
  induction ts generalizing k cc l with
  | nil => intro j hj; simp at hj
  | cons ch rest ih =>
    intro j hj pattern hpj
    cases hpat : ASCII_PATTERNS ch with
    | none => simp [charLoop, hpat] at h
    | some pat0 =>
      cases hf : f k pat0 cc with
      | none => simp [charLoop, hpat, hf] at h
      | some here =>
        cases hrec : charLoop f rest (k + 1) (cc + 12) with
        | none => simp [charLoop, hpat, hf, hrec] at h
        | some tail =>
          cases j with
          | zero =>
            have hpe : pattern = pat0 := by
              have hpj' : ASCII_PATTERNS ch = some pattern := by simpa using hpj
              rw [hpj'] at hpat
              exact Option.some_inj.mp hpat
            subst hpe
            simpa using congrArg Option.isSome hf
          | succ j' =>
            have hj' : j' < rest.length := by
              simp only [List.length_cons] at hj
              omega
            have hpj' : ASCII_PATTERNS (rest.get ⟨j', hj'⟩) = some pattern := by
              simpa using hpj
            have := ih hrec j' hj' pattern hpj'
            have e1 : k + 1 + j' = k + (j' + 1) := by omega
            have hcol : cc + 12 + 12 * (j' : Int) = cc + 12 * ((j' + 1 : Nat) : Int) := by
              push_cast
              ring
            rwa [e1, hcol] at this

/-- get_highlight_positions never fails on a supported time string with
at most 8 characters (HH:MM:SS has exactly 8). -/
theorem get_highlight_positions_isSome {ts : List Char} {sr sc gw gh : Int}
    (hsup : ∀ c ∈ ts, (ASCII_PATTERNS c).isSome = true) (hlen : ts.length ≤ 8) :
    (get_highlight_positions ts sr sc gw gh).isSome = true := by
  unfold get_highlight_positions highlightLoop
  apply charLoop_isSome hsup
  intro j pattern c hj
  rw [Option.isSome_map']
  have hj8 : 0 + j < colors.length := by
    have : colors.length = 8 := by rfl
    omega
  rw [List.get?_eq_get hj8]
  rfl

/-- get_border_positions never fails on a supported time string. -/
theorem get_border_positions_isSome {ts : List Char} {sr sc gw gh : Int}
    (hsup : ∀ c ∈ ts, (ASCII_PATTERNS c).isSome = true) :
    (get_border_positions ts sr sc gw gh).isSome = true := by
  have h1 : (digitPosLoop sr gw gh ts sc).isSome = true := by
    unfold digitPosLoop
    apply charLoop_isSome hsup
    intro j pattern c hj
    rfl
  rcases Option.isSome_iff_exists.mp h1 with ⟨digits, hd⟩
  have h2 : (borderLoop sr gw gh digits ts sc).isSome = true := by
    unfold borderLoop
    apply charLoop_isSome hsup
    intro j pattern c hj
    rfl
  rcases Option.isSome_iff_exists.mp h2 with ⟨borders, hb⟩
  unfold get_border_positions
  rw [hd]
  simp only [hb]
  rfl

/-- time_lit_abs never fails on a supported time string. -/
theorem time_lit_abs_isSome {ts : List Char} {sr sc : Int}
    (hsup : ∀ c ∈ ts, (ASCII_PATTERNS c).isSome = true) :
    (time_lit_abs ts sr sc).isSome = true := by
  unfold time_lit_abs litAbsLoop
  apply charLoop_isSome hsup
  intro j pattern c hj
  rfl

/-! ## Claim theorems for the compositor -/

/-- C3: For every time string of supported characters (the spec's
TimeString has exactly 8 slots, so at most 8 characters), every anchor
position -- including negative or oversized ones -- and every grid
size, the highlight and border computations succeed (out-of-range
glyph pixels are clipped cell by cell, never an error), and every
produced position satisfies 0 ≤ row < grid_height and
0 ≤ col < grid_width. -/
theorem C3_all_positions_in_bounds (ts : List Char) (sr sc gw gh : Int)
    (hsup : ∀ c ∈ ts, (ASCII_PATTERNS c).isSome = true)
    (hlen : ts.length ≤ 8) :
    (get_highlight_positions ts sr sc gw gh).isSome = true ∧
    (get_border_positions ts sr sc gw gh).isSome = true ∧
    (∀ x ∈ (get_highlight_positions ts sr sc gw gh).getD [],
      0 ≤ x.1 ∧ x.1 < gh ∧ 0 ≤ x.2.1 ∧ x.2.1 < gw) ∧
    (∀ p ∈ (get_border_positions ts sr sc gw gh).getD [],
      0 ≤ p.1 ∧ p.1 < gh ∧ 0 ≤ p.2 ∧ p.2 < gw) := by
  refine ⟨get_highlight_positions_isSome hsup hlen,
    get_border_positions_isSome hsup, ?_, ?_⟩
  · intro x hx
    cases hl : get_highlight_positions ts sr sc gw gh with
    | none => rw [hl] at hx; simp at hx
    | some l =>
      rw [hl] at hx
      simp only [Option.getD_some] at hx
      rcases (get_highlight_positions_mem hl x).mp hx with
        ⟨j, hj, pattern, hp, color, hc, hcell⟩
      rcases mem_charCells.mp hcell with
        ⟨ro, co, hro, hco, hlit, hb1, hb2, hb3, hb4, hxe⟩
      subst hxe
      exact ⟨hb1, hb2, hb3, hb4⟩
  · intro p hp
    cases hbres : get_border_positions ts sr sc gw gh with
    | none => rw [hbres] at hp; simp at hp
    | some bd =>
      rw [hbres] at hp
      simp only [Option.getD_some] at hp
      rcases get_border_positions_eq hbres with ⟨digits, borders, hd, hb, hbd⟩
      subst hbd
      rw [List.mem_dedup] at hp
      rcases (borderLoop_mem hb p).mp hp with ⟨j, hj, pattern, hpj, hcell⟩
      rcases mem_borderCells.mp hcell with
        ⟨ro, co, hro, hco, hlit, d, hd8, hb1, hb2, hb3, hb4, hnd, hpe⟩
      subst hpe
      exact ⟨hb1, hb2, hb3, hb4⟩

/-- C3 witness: the time string 12:30:45 at the negative anchor
(-3, -5) on a 20-wide, 9-high grid: both computations succeed and all
positions are clipped into bounds. -/
theorem C3_witness :
    (∀ c ∈ ['1', '2', ':', '3', '0', ':', '4', '5'],
      (ASCII_PATTERNS c).isSome = true) ∧
    (['1', '2', ':', '3', '0', ':', '4', '5'] : List Char).length ≤ 8 ∧
    ((get_highlight_positions ['1', '2', ':', '3', '0', ':', '4', '5']
        (-3) (-5) 20 9).isSome = true ∧
     (get_border_positions ['1', '2', ':', '3', '0', ':', '4', '5']
        (-3) (-5) 20 9).isSome = true ∧
     (∀ x ∈ (get_highlight_positions ['1', '2', ':', '3', '0', ':', '4', '5']
        (-3) (-5) 20 9).getD [],
       0 ≤ x.1 ∧ x.1 < 9 ∧ 0 ≤ x.2.1 ∧ x.2.1 < 20) ∧
     (∀ p ∈ (get_border_positions ['1', '2', ':', '3', '0', ':', '4', '5']
        (-3) (-5) 20 9).getD [],
       0 ≤ p.1 ∧ p.1 < 9 ∧ 0 ≤ p.2 ∧ p.2 < 20)) :=
  ⟨by decide, by decide,
    C3_all_positions_in_bounds ['1', '2', ':', '3', '0', ':', '4', '5']
      (-3) (-5) 20 9 (by decide) (by decide)⟩

/-- C4: for every time string, anchor and grid size, the border set and
the highlight set computed for the same inputs are disjoint: no border
position equals the (row, col) of any highlight cell. -/
theorem C4_highlight_border_disjoint (ts : List Char) (sr sc gw gh : Int) :
    ∀ p ∈ (get_border_positions ts sr sc gw gh).getD [],
      ∀ x ∈ (get_highlight_positions ts sr sc gw gh).getD [],
        (x.1, x.2.1) ≠ p := by
  intro p hp x hx
  cases hbres : get_border_positions ts sr sc gw gh with
  | none => rw [hbres] at hp; simp at hp
  | some bd =>
    rw [hbres] at hp
    simp only [Option.getD_some] at hp
    cases hlres : get_highlight_positions ts sr sc gw gh with
    | none => rw [hlres] at hx; simp at hx
    | some l =>
      rw [hlres] at hx
      simp only [Option.getD_some] at hx
      rcases get_border_positions_eq hbres with ⟨digits, borders, hd, hb, hbd⟩
      subst hbd
      rw [List.mem_dedup] at hp
      rcases (borderLoop_mem hb p).mp hp with ⟨j, hj, pattern, hpj, hcell⟩
      rcases mem_borderCells.mp hcell with
        ⟨ro, co, hro, hco, hlit, d, hd8, hb1, hb2, hb3, hb4, hnd, hpe⟩
      rcases (get_highlight_positions_mem hlres x).mp hx with
        ⟨j2, hj2, pat2, hp2, color2, hc2, hcell2⟩
      rcases mem_charCells.mp hcell2 with
        ⟨ro2, co2, hro2, hco2, hlit2, hB1, hB2, hB3, hB4, hxe⟩
      intro hcontra
      have hxin : (x.1, x.2.1) ∈ digits := by
        rw [digitPosLoop_mem hd]
        refine ⟨j2, hj2, pat2, hp2, mem_charCellsPos.mpr
          ⟨ro2, co2, hro2, hco2, hlit2, hB1, hB2, hB3, hB4, ?_⟩⟩
        rw [hxe]
      rw [hcontra, hpe] at hxin
      exact hnd hxin

/-- C4 witness: the glyph '1' at anchor (0, 0) on a 12 x 12 grid; the
border cell (0, 2) differs from the highlight cell at (0, 3). -/
theorem C4_witness :
    ((0 : Int), (2 : Int)) ∈ (get_border_positions ['1'] 0 0 12 12).getD [] ∧
    ((0 : Int), (3 : Int), Colors.RED ++ Colors.BOLD) ∈
      (get_highlight_positions ['1'] 0 0 12 12).getD [] ∧
    (((0 : Int), (3 : Int), Colors.RED ++ Colors.BOLD).1,
     ((0 : Int), (3 : Int), Colors.RED ++ Colors.BOLD).2.1) ≠
      ((0 : Int), (2 : Int)) :=
  ⟨by decide, by decide,
    C4_highlight_border_disjoint ['1'] 0 0 12 12 ((0 : Int), (2 : Int))
      (by decide) ((0 : Int), (3 : Int), Colors.RED ++ Colors.BOLD) (by decide)⟩

/-- C5: every highlight cell is a lit pixel of the glyph of the
character at some 0-based index i of the time string, translated so the
glyph's top-left sits at (anchor_row, anchor_col + i * 12) (spacing
fixed at 12 = glyph width 9 plus 3), then clipped to the grid; and,
conversely, every such in-bounds translated lit pixel is a highlight
cell.  Consequently every highlight cell lies inside the 11-row by
9-column box of its slot. -/
theorem C5_slot_placement (ts : List Char) (sr sc gw gh : Int)
    (l : List (Int × Int × String))
    (h : get_highlight_positions ts sr sc gw gh = some l) :
    (∀ x : Int × Int × String, x ∈ l ↔
      ∃ i : Nat, ∃ hi : i < ts.length,
        ∃ pattern, ASCII_PATTERNS (ts.get ⟨i, hi⟩) = some pattern ∧
        ∃ color, colors.get? i = some color ∧
        ∃ ro co : Nat, ro < 11 ∧ co < 9 ∧ patLit pattern ro co = true ∧
          0 ≤ sr + (ro : Int) ∧ sr + (ro : Int) < gh ∧
          0 ≤ sc + 12 * (i : Int) + (co : Int) ∧
          sc + 12 * (i : Int) + (co : Int) < gw ∧
          x = (sr + (ro : Int), sc + 12 * (i : Int) + (co : Int), color)) ∧
    (∀ x ∈ l, ∃ i : Nat, i < ts.length ∧
      sr ≤ x.1 ∧ x.1 < sr + 11 ∧
      sc + 12 * (i : Int) ≤ x.2.1 ∧ x.2.1 < sc + 12 * (i : Int) + 9) := by
  have hchar : ∀ x : Int × Int × String, x ∈ l ↔
      ∃ i : Nat, ∃ hi : i < ts.length,
        ∃ pattern, ASCII_PATTERNS (ts.get ⟨i, hi⟩) = some pattern ∧
        ∃ color, colors.get? i = some color ∧
        ∃ ro co : Nat, ro < 11 ∧ co < 9 ∧ patLit pattern ro co = true ∧
          0 ≤ sr + (ro : Int) ∧ sr + (ro : Int) < gh ∧
          0 ≤ sc + 12 * (i : Int) + (co : Int) ∧
          sc + 12 * (i : Int) + (co : Int) < gw ∧
          x = (sr + (ro : Int), sc + 12 * (i : Int) + (co : Int), color) := by
    intro x
    rw [get_highlight_positions_mem h x]
    constructor
    · rintro ⟨j, hj, pattern, hp, color, hc, hcell⟩
      rcases mem_charCells.mp hcell with
        ⟨ro, co, hro, hco, hlit, hb1, hb2, hb3, hb4, hxe⟩
      exact ⟨j, hj, pattern, hp, color, hc, ro, co, hro, hco, hlit,
        hb1, hb2, hb3, hb4, hxe⟩
    · rintro ⟨i, hi, pattern, hp, color, hc, ro, co, hro, hco, hlit,
        hb1, hb2, hb3, hb4, hxe⟩
      exact ⟨i, hi, pattern, hp, color, hc, mem_charCells.mpr
        ⟨ro, co, hro, hco, hlit, hb1, hb2, hb3, hb4, hxe⟩⟩
  refine ⟨hchar, ?_⟩
  intro x hx
  rcases (hchar x).mp hx with ⟨i, hi, pattern, hp, color, hc, ro, co, hro, hco,
    hlit, hb1, hb2, hb3, hb4, hxe⟩
  subst hxe
  refine ⟨i, hi, ?_, ?_, ?_, ?_⟩
  · show sr ≤ sr + (ro : Int)
    omega
  · show sr + (ro : Int) < sr + 11
    omega
  · show sc + 12 * (i : Int) ≤ sc + 12 * (i : Int) + (co : Int)
    omega
  · show sc + 12 * (i : Int) + (co : Int) < sc + 12 * (i : Int) + 9
    omega

/-- C5 witness: the spec's scenario, time string 12:30:45 at anchor
(5, 10) on a 120-wide, 30-high grid. -/
theorem C5_witness :
    get_highlight_positions ['1', '2', ':', '3', '0', ':', '4', '5'] 5 10 120 30 =
      some ((get_highlight_positions ['1', '2', ':', '3', '0', ':', '4', '5']
        5 10 120 30).getD []) ∧
    ((∀ x : Int × Int × String,
        x ∈ (get_highlight_positions ['1', '2', ':', '3', '0', ':', '4', '5']
          5 10 120 30).getD [] ↔
        ∃ i : Nat,
          ∃ hi : i < (['1', '2', ':', '3', '0', ':', '4', '5'] : List Char).length,
          ∃ pattern,
            ASCII_PATTERNS ((['1', '2', ':', '3', '0', ':', '4', '5'] :
              List Char).get ⟨i, hi⟩) = some pattern ∧
          ∃ color, colors.get? i = some color ∧
          ∃ ro co : Nat, ro < 11 ∧ co < 9 ∧ patLit pattern ro co = true ∧
            0 ≤ (5 : Int) + (ro : Int) ∧ (5 : Int) + (ro : Int) < 30 ∧
            0 ≤ (10 : Int) + 12 * (i : Int) + (co : Int) ∧
            (10 : Int) + 12 * (i : Int) + (co : Int) < 120 ∧
            x = ((5 : Int) + (ro : Int), (10 : Int) + 12 * (i : Int) + (co : Int),
              color)) ∧
     (∀ x ∈ (get_highlight_positions ['1', '2', ':', '3', '0', ':', '4', '5']
          5 10 120 30).getD [],
        ∃ i : Nat, i < (['1', '2', ':', '3', '0', ':', '4', '5'] : List Char).length ∧
          (5 : Int) ≤ x.1 ∧ x.1 < (5 : Int) + 11 ∧
          (10 : Int) + 12 * (i : Int) ≤ x.2.1 ∧
          x.2.1 < (10 : Int) + 12 * (i : Int) + 9)) := by
  have hsome : get_highlight_positions ['1', '2', ':', '3', '0', ':', '4', '5']
      5 10 120 30 =
      some ((get_highlight_positions ['1', '2', ':', '3', '0', ':', '4', '5']
        5 10 120 30).getD []) := by rfl
  exact ⟨hsome, C5_slot_placement ['1', '2', ':', '3', '0', ':', '4', '5']
    5 10 120 30 _ hsome⟩

/-- C2 counterexample: with the glyph '0' anchored at row 1 on a
height-1, width-3 grid, every lit pixel is clipped away, so the
highlight set is empty -- yet (0, 0) is produced as a border cell
(the second pass of get_border_positions scans the 8 neighbors of lit
pixels WITHOUT bounds-checking the pixel itself, src/clock.py lines
425-446).  So a border cell need not be 8-adjacent to any highlight
cell, refuting the claim. -/
theorem C2_counterexample :
    get_highlight_positions ['0'] 1 0 3 1 = some [] ∧
    ((0 : Int), (0 : Int)) ∈ (get_border_positions ['0'] 1 0 3 1).getD [] ∧
    ∀ x ∈ (get_highlight_positions ['0'] 1 0 3 1).getD [],
      ¬ adj8 ((0 : Int), (0 : Int)) (x.1, x.2.1) := by
  refine ⟨by rfl, by decide, ?_⟩
  intro x hx
  have h : get_highlight_positions ['0'] 1 0 3 1 = some [] := by rfl
  rw [h] at hx
  simp at hx

/-- C2 amended: the border set is exactly the set of in-bounds cells
that are 8-adjacent to some lit glyph pixel -- clipped or not -- and
are not themselves in-bounds lit pixels; the in-bounds lit pixel set
(`digit_positions`) is exactly the set of highlight positions.  (The
original claim holds whenever no lit pixel is clipped, but clipped lit
pixels still shed border cells into the grid.) -/
theorem C2_border_characterization (ts : List Char) (sr sc gw gh : Int)
    (bd la : List (Int × Int))
    (hb : get_border_positions ts sr sc gw gh = some bd)
    (hla : time_lit_abs ts sr sc = some la) :
    (∀ p : Int × Int, p ∈ bd ↔
      ((0 ≤ p.1 ∧ p.1 < gh ∧ 0 ≤ p.2 ∧ p.2 < gw) ∧
       p ∉ (digitPosLoop sr gw gh ts sc).getD [] ∧
       ∃ q ∈ la, adj8 p q)) ∧
    (∀ l, get_highlight_positions ts sr sc gw gh = some l →
      ∀ p : Int × Int, p ∈ (digitPosLoop sr gw gh ts sc).getD [] ↔
        ∃ color, (p.1, p.2, color) ∈ l) := by
  rcases get_border_positions_eq hb with ⟨digits, borders, hd, hbl, hbd⟩
  subst hbd
  have hdg : (digitPosLoop sr gw gh ts sc).getD [] = digits := by
    rw [hd]
    rfl
  constructor
  · intro p
    rw [List.mem_dedup, borderLoop_mem hbl p, hdg]
    constructor
    · rintro ⟨j, hj, pattern, hpj, hcell⟩
      rcases mem_borderCells.mp hcell with
        ⟨ro, co, hro, hco, hlit, d, hd8, hb1, hb2, hb3, hb4, hnd, hpe⟩
      subst hpe
      refine ⟨⟨hb1, hb2, hb3, hb4⟩, hnd, ?_⟩
      refine ⟨(sr + (ro : Int), sc + 12 * (j : Int) + (co : Int)), ?_, ?_⟩
      · rw [litAbsLoop_mem hla]
        exact ⟨j, hj, pattern, hpj,
          mem_charLitAbs.mpr ⟨ro, co, hro, hco, hlit, rfl⟩⟩
      · rw [adj8_iff_offset]
        exact ⟨d, hd8, rfl⟩
    · rintro ⟨⟨hb1, hb2, hb3, hb4⟩, hnd, q, hq, hadj⟩
      rw [litAbsLoop_mem hla] at hq
      rcases hq with ⟨j, hj, pattern, hpj, hqcell⟩
      rcases mem_charLitAbs.mp hqcell with ⟨ro, co, hro, hco, hlit, hqe⟩
      rcases adj8_iff_offset.mp hadj with ⟨d, hd8, hpe⟩
      have hp1 : p.1 = sr + (ro : Int) + d.1 := by
        rw [hpe, hqe]
      have hp2 : p.2 = sc + 12 * (j : Int) + (co : Int) + d.2 := by
        rw [hpe, hqe]
      have hpfull : p = (sr + (ro : Int) + d.1,
          sc + 12 * (j : Int) + (co : Int) + d.2) := by
        rw [Prod.ext_iff]
        exact ⟨hp1, hp2⟩
      refine ⟨j, hj, pattern, hpj, mem_borderCells.mpr
        ⟨ro, co, hro, hco, hlit, d, hd8, ?_, ?_, ?_, ?_, ?_, ?_⟩⟩
      · rw [← hp1]
        exact hb1
      · rw [← hp1]
        exact hb2
      · rw [← hp2]
        exact hb3
      · rw [← hp2]
        exact hb4
      · intro hmem
        apply hnd
        rw [hpfull]
        exact hmem
      · exact hpfull
  · intro l hl p
    rw [hdg, digitPosLoop_mem hd p]
    constructor
    · rintro ⟨j, hj, pattern, hpj, hcell⟩
      rcases mem_charCellsPos.mp hcell with
        ⟨ro, co, hro, hco, hlit, hb1, hb2, hb3, hb4, hpe⟩
      have hcol : ((fun k pat cc =>
          (colors.get? k).map fun color => charCells pat color sr cc gw gh)
          (0 + j) pattern (sc + 12 * (j : Int))).isSome = true := by
        have := charLoop_body_isSome hl j hj pattern hpj
        exact this
      simp only [Nat.zero_add, Option.isSome_map'] at hcol
      rcases Option.isSome_iff_exists.mp hcol with ⟨color, hc⟩
      refine ⟨color, ?_⟩
      rw [get_highlight_positions_mem hl]
      refine ⟨j, hj, pattern, hpj, color, hc, mem_charCells.mpr
        ⟨ro, co, hro, hco, hlit, hb1, hb2, hb3, hb4, ?_⟩⟩
      rw [hpe]
    · rintro ⟨color, hx⟩
      rw [get_highlight_positions_mem hl] at hx
      rcases hx with ⟨j, hj, pattern, hpj, color2, hc2, hcell⟩
      rcases mem_charCells.mp hcell with
        ⟨ro, co, hro, hco, hlit, hb1, hb2, hb3, hb4, hxe⟩
      refine ⟨j, hj, pattern, hpj, mem_charCellsPos.mpr
        ⟨ro, co, hro, hco, hlit, hb1, hb2, hb3, hb4, ?_⟩⟩
      have h1 : p.1 = sr + (ro : Int) := congrArg (fun t => t.1) hxe
      have h2 : p.2 = sc + 12 * (j : Int) + (co : Int) :=
        congrArg (fun t => t.2.1) hxe
      rw [Prod.ext_iff]
      exact ⟨h1, h2⟩

/-- A somehow-successful Option value equals some of its getD. -/
theorem eq_some_getD {α : Type} {o : Option α} (d : α) (h : o.isSome = true) :
    o = some (o.getD d) := by
  rcases Option.isSome_iff_exists.mp h with ⟨v, hv⟩
  rw [hv]
  rfl

/-- C2 amended witness: the glyph '1' at the negative anchor (-3, -2)
on an 8-wide, 5-high grid, where part of the glyph is clipped. -/
theorem C2_witness :
    get_border_positions ['1'] (-3) (-2) 8 5 =
      some ((get_border_positions ['1'] (-3) (-2) 8 5).getD []) ∧
    time_lit_abs ['1'] (-3) (-2) =
      some ((time_lit_abs ['1'] (-3) (-2)).getD []) ∧
    ((∀ p : Int × Int, p ∈ (get_border_positions ['1'] (-3) (-2) 8 5).getD [] ↔
      ((0 ≤ p.1 ∧ p.1 < 5 ∧ 0 ≤ p.2 ∧ p.2 < 8) ∧
       p ∉ (digitPosLoop (-3) 8 5 ['1'] (-2)).getD [] ∧
       ∃ q ∈ (time_lit_abs ['1'] (-3) (-2)).getD [], adj8 p q)) ∧
     (∀ l, get_highlight_positions ['1'] (-3) (-2) 8 5 = some l →
      ∀ p : Int × Int, p ∈ (digitPosLoop (-3) 8 5 ['1'] (-2)).getD [] ↔
        ∃ color, (p.1, p.2, color) ∈ l)) := by
  have hbs : (get_border_positions ['1'] (-3) (-2) 8 5).isSome = true :=
    get_border_positions_isSome (by decide)
  have hlas : (time_lit_abs ['1'] (-3) (-2)).isSome = true :=
    time_lit_abs_isSome (by decide)
  exact ⟨eq_some_getD [] hbs, eq_some_getD [] hlas,
    C2_border_characterization ['1'] (-3) (-2) 8 5
      ((get_border_positions ['1'] (-3) (-2) 8 5).getD [])
      ((time_lit_abs ['1'] (-3) (-2)).getD [])
      (eq_some_getD [] hbs) (eq_some_getD [] hlas)⟩

/-! ## Lemmas for the grid builder -/

theorem fillRow_length {source : List Char} :
    ∀ {n i : Nat} {row : List Char} {e : Nat},
      fillRow source n i = some (row, e) → row.length = n := by
  intro n
  induction n with
  | zero =>
    intro i row e h
    simp only [fillRow, Option.some_inj, Prod.mk.injEq] at h
    rw [← h.1]
    rfl
  | succ n ih =>
    intro i row e h
    rw [fillRow] at h
    split_ifs at h with hil
    · cases hg : source.get? i with
      | none => rw [hg] at h; simp at h
      | some c =>
        rw [hg] at h
        cases hr : fillRow source n (i + 1) with
        | none => rw [hr] at h; simp at h
        | some p =>
          obtain ⟨r, idx⟩ := p
          rw [hr] at h
          simp only [Option.some_inj, Prod.mk.injEq] at h
          rw [← h.1]
          simp [ih hr]
    · cases hg : source.get? 0 with
      | none => rw [hg] at h; simp at h
      | some c =>
        rw [hg] at h
        cases hr : fillRow source n 0 with
        | none => rw [hr] at h; simp at h
        | some p =>
          obtain ⟨r, idx⟩ := p
          rw [hr] at h
          simp only [Option.some_inj, Prod.mk.injEq] at h
          rw [← h.1]
          simp [ih hr]

/-- Taking m + n cells is taking m cells and then n more from the state
the first batch ends in. -/
theorem fillRow_add {source : List Char} :
    ∀ (m n i : Nat), fillRow source (m + n) i =
      match fillRow source m i with
      | some (r1, i1) =>
        match fillRow source n i1 with
        | some (r2, i2) => some (r1 ++ r2, i2)
        | none => none
      | none => none := by
  intro m
  induction m with
  | zero =>
    intro n i
    rw [Nat.zero_add]
    show fillRow source n i =
      match fillRow source n i with
      | some (r2, i2) => some ([] ++ r2, i2)
      | none => none
    cases fillRow source n i with
    | none => rfl
    | some p =>
      obtain ⟨r2, i2⟩ := p
      simp
  | succ m ih =>
    intro n i
    have he : m + 1 + n = (m + n) + 1 := by omega
    rw [he, fillRow, fillRow]
    split_ifs with hil
    · cases hg : source.get? i with
      | none => rfl
      | some c =>
        rw [ih n (i + 1)]
        cases h1 : fillRow source m (i + 1) with
        | none => rfl
        | some p =>
          obtain ⟨r1, i1⟩ := p
          cases h2 : fillRow source n i1 with
          | none => simp [h2]
          | some q =>
            obtain ⟨r2, i2⟩ := q
            simp [h2]
    · cases hg : source.get? 0 with
      | none => rfl
      | some c =>
        rw [ih n 0]
        cases h1 : fillRow source m 0 with
        | none => rfl
        | some p =>
          obtain ⟨r1, i1⟩ := p
          cases h2 : fillRow source n i1 with
          | none => simp [h2]
          | some q =>
            obtain ⟨r2, i2⟩ := q
            simp [h2]

/-- A successful single run of h * w cells yields a successful grid of
h rows of w cells whose row-major flattening is that run. -/
theorem fillGrid_exists {source : List Char} {w : Nat} :
    ∀ (h i : Nat) (row : List Char) (e : Nat),
      fillRow source (h * w) i = some (row, e) →
      ∃ g, fillGrid source w h i = some g ∧ g.length = h ∧
        (∀ r ∈ g, r.length = w) ∧ g.flatten = row := by
  intro h
  induction h with
  | zero =>
    intro i row e hfr
    rw [Nat.zero_mul] at hfr
    simp only [fillRow, Option.some_inj, Prod.mk.injEq] at hfr
    exact ⟨[], rfl, rfl, by simp, by simp [← hfr.1]⟩
  | succ h ih =>
    intro i row e hfr
    have he : (h + 1) * w = w + h * w := by ring
    rw [he, fillRow_add w (h * w) i] at hfr
    cases h1 : fillRow source w i with
    | none => rw [h1] at hfr; simp at hfr
    | some p =>
      obtain ⟨r1, i1⟩ := p
      rw [h1] at hfr
      have hfr2 : (match fillRow source (h * w) i1 with
          | some (r2, i2) => some (r1 ++ r2, i2)
          | none => none) = some (row, e) := hfr
      cases h2 : fillRow source (h * w) i1 with
      | none => rw [h2] at hfr2; simp at hfr2
      | some q =>
        obtain ⟨r2, i2⟩ := q
        rw [h2] at hfr2
        simp only [Option.some_inj, Prod.mk.injEq] at hfr2
        obtain ⟨g, hg, hlen, hrows, hflat⟩ := ih i1 r2 i2 h2
        refine ⟨r1 :: g, ?_, ?_, ?_, ?_⟩
        · simp [fillGrid, h1, hg]
        · simp [hlen]
        · intro r hr
          rcases List.mem_cons.mp hr with hr | hr
          · rw [hr]
            exact fillRow_length h1
          · exact hrows r hr
        · rw [List.flatten_cons, hflat, hfr2.1]

/-- The cells a run emits: reading n cells from cursor state
i ≤ len(source) yields the first n characters of the rest of the source
followed by copies of (source[0] :: source) -- the wrap doubles the
first character. -/
theorem fillRow_stream {source : List Char} (hs : source ≠ []) :
    ∀ (n N i : Nat), i ≤ source.length → n ≤ N →
      ∃ e, fillRow source n i =
        some ((source.drop i ++
          (List.replicate N (source.headD ' ' :: source)).flatten).take n, e) ∧
        e ≤ source.length := by
  intro n
  induction n with
  | zero =>
    intro N i hi _
    exact ⟨i, by simp [fillRow], hi⟩
  | succ n ih =>
    intro N i hi hn
    by_cases hil : i < source.length
    · have hget : source.get? i = some (source.get ⟨i, hil⟩) := List.get?_eq_get hil
      obtain ⟨e, hrec, he⟩ := ih N (i + 1) (by omega) (by omega)
      refine ⟨e, ?_, he⟩
      rw [fillRow, if_pos hil, hget, hrec,
        List.drop_eq_get_cons hil, List.cons_append, List.take_succ_cons]
    · have hieq : source.length ≤ i := by omega
      have hdrop : source.drop i = [] := List.drop_eq_nil_of_le hieq
      obtain ⟨c0, rest, rfl⟩ : ∃ c0 rest, source = c0 :: rest := by
        cases source with
        | nil => exact absurd rfl hs
        | cons a l => exact ⟨a, l, rfl⟩
      obtain ⟨N', rfl⟩ : ∃ N', N = N' + 1 := ⟨N - 1, by omega⟩
      obtain ⟨e, hrec, he⟩ := ih N' 0 (by omega) (by omega)
      refine ⟨e, ?_, he⟩
      rw [fillRow, if_neg hil]
      have hget0 : (c0 :: rest).get? 0 = some c0 := rfl
      rw [hget0, hrec, hdrop, List.nil_append, List.replicate_succ,
        List.flatten_cons]
      have hhead : (c0 :: rest).headD ' ' = c0 := rfl
      rw [hhead, List.cons_append, List.take_succ_cons, List.drop_zero]

/-- C1 counterexample: with filler "AB" on a 1 x 4 grid the builder
produces ABAA, not ABAB: the cell of row-major index 3 is 'A' but
filler[3 mod 2] is 'B'.  The wrap (else-branch of create_display_grid,
src/clock.py lines 204-206) resets the cursor to 0 and emits source[0]
without advancing, so index 0 is read twice in a row. -/
theorem C1_counterexample :
    create_display_grid ['A', 'B'] 1 4 = some [['A', 'B', 'A', 'A']] ∧
    (['A', 'B', 'A', 'A'] : List Char).get? 3 ≠
      (['A', 'B'] : List Char).get? (3 % (['A', 'B'] : List Char).length) := by
  constructor
  · rfl
  · decide

/-- C1 amended: for non-empty filler text the builder returns a grid of
exactly height rows and width columns whose row-major reading is the
first height * width characters of: the filler verbatim, followed by
copies of (filler[0] :: filler).  At every wrap filler[0] is emitted
twice in a row, so after the first wrap cells no longer equal
filler[k mod len(filler)]. -/
theorem C1_grid_tiling (source : List Char) (height width : Nat)
    (hs : source ≠ []) :
    (create_display_grid source height width).isSome = true ∧
    ((create_display_grid source height width).getD []).length = height ∧
    (∀ row ∈ (create_display_grid source height width).getD [],
      row.length = width) ∧
    ((create_display_grid source height width).getD []).flatten =
      (wrapStream source (height * width)).take (height * width) := by
  obtain ⟨e, hfr, he⟩ := fillRow_stream hs (height * width) (height * width) 0
    (Nat.zero_le _) (le_refl _)
  rw [List.drop_zero] at hfr
  obtain ⟨g, hg, hglen, hrows, hflat⟩ := fillGrid_exists height 0 _ e hfr
  have hcdg : create_display_grid source height width = some g := hg
  rw [hcdg]
  refine ⟨rfl, hglen, hrows, ?_⟩
  show g.flatten = _
  rw [hflat, wrapStream]

/-- C1 witness: filler "AB" on a 2 x 5 grid. -/
theorem C1_witness :
    (['A', 'B'] : List Char) ≠ [] ∧
    ((create_display_grid ['A', 'B'] 2 5).isSome = true ∧
     ((create_display_grid ['A', 'B'] 2 5).getD []).length = 2 ∧
     (∀ row ∈ (create_display_grid ['A', 'B'] 2 5).getD [], row.length = 5) ∧
     ((create_display_grid ['A', 'B'] 2 5).getD []).flatten =
       (wrapStream ['A', 'B'] (2 * 5)).take (2 * 5)) :=
  ⟨by decide, C1_grid_tiling ['A', 'B'] 2 5 (by decide)⟩

/-- C7: on empty filler text the grid builder fails on the very first
cell of the build call itself (Python raises IndexError at source[0] in
the wrap branch); it does not loop forever and does not return a grid.
The model returns `none`, the image of the raised exception. -/
theorem C7_empty_source_fails (height width : Nat)
    (hh : 0 < height) (hw : 0 < width) :
    create_display_grid [] height width = none := by
  obtain ⟨h', rfl⟩ : ∃ h', height = h' + 1 := ⟨height - 1, by omega⟩
  obtain ⟨w', rfl⟩ : ∃ w', width = w' + 1 := ⟨width - 1, by omega⟩
  rfl

/-- C7 witness: a 3 x 5 build from empty filler fails. -/
theorem C7_witness :
    0 < 3 ∧ 0 < 5 ∧ create_display_grid [] 3 5 = none :=
  ⟨by decide, by decide, C7_empty_source_fails 3 5 (by decide) (by decide)⟩

/-! ## Lemmas for the frame renderer -/

theorem dictGet_cons (e : (Int × Int) × String) (d : List ((Int × Int) × String))
    (k : Int × Int) :
    dictGet (e :: d) k =
      match dictGet d k with
      | some v => some v
      | none => if e.1 = k then some e.2 else none := by
  have key : ∀ (acc : Option String),
      d.foldl (fun acc entry => if entry.1 = k then some entry.2 else acc) acc =
        match dictGet d k with
        | some v => some v
        | none => acc := by
    induction d with
    | nil => intro acc; rfl
    | cons f rest ih =>
      intro acc
      show rest.foldl _ (if f.1 = k then some f.2 else acc) = _
      rw [ih]
      have h2 : dictGet (f :: rest) k =
          match dictGet rest k with
          | some v => some v
          | none => if f.1 = k then some f.2 else none := by
        show rest.foldl _ (if f.1 = k then some f.2 else none) = _
        rw [ih]
      rw [h2]
      by_cases hek : f.1 = k <;> cases hdr : dictGet rest k <;> simp [hek]
  show d.foldl _ (if e.1 = k then some e.2 else none) = _
  rw [key]

theorem dictGet_of_no_key (d : List ((Int × Int) × String)) (k : Int × Int)
    (h : ∀ e ∈ d, e.1 ≠ k) : dictGet d k = none := by
  induction d with
  | nil => rfl
  | cons e rest ih =>
    rw [dictGet_cons]
    rw [ih fun f hf => h f (List.mem_cons_of_mem e hf)]
    rw [if_neg (h e (List.mem_cons_self e rest))]

/-- Entries of highlight_dict come from highlight positions, carrying
the position as key. -/
theorem mem_highlight_dict {grid : List (List Char)}
    {hps : List (Int × Int × String)} {e : (Int × Int) × String}
    (h : e ∈ highlight_dict grid hps) :
    ∃ t ∈ hps, e = ((t.1, t.2.1), t.2.2) := by
  rcases List.mem_filterMap.mp h with ⟨t, ht, heq⟩
  refine ⟨t, ht, ?_⟩
  split_ifs at heq
  exact (Option.some_inj.mp heq).symm

/-- For an in-bounds key and duplicate-free highlight positions, the
last-write-wins dict lookup agrees with a first-match scan of the
highlight position list. -/
theorem dictGet_highlight_dict (grid : List (List Char)) (k : Int × Int)
    (hk1 : 0 ≤ k.1) (hk2 : k.1 < (grid.length : Int))
    (hk3 : 0 ≤ k.2) (hk4 : k.2 < ((grid.headD []).length : Int)) :
    ∀ (hps : List (Int × Int × String)),
      (hps.map fun t => (t.1, t.2.1)).Nodup →
      dictGet (highlight_dict grid hps) k =
        (hps.find? fun t => t.1 == k.1 && t.2.1 == k.2).map fun t => t.2.2 := by
  intro hps
  induction hps with
  | nil => intro _; rfl
  | cons t rest ih =>
    intro hnd
    rw [List.map_cons, List.nodup_cons] at hnd
    obtain ⟨hkt, hnd'⟩ := hnd
    by_cases hbt : 0 ≤ t.1 ∧ t.1 < (grid.length : Int) ∧ 0 ≤ t.2.1 ∧
        t.2.1 < ((grid.headD []).length : Int)
    · have hdict : highlight_dict grid (t :: rest) =
          ((t.1, t.2.1), t.2.2) :: highlight_dict grid rest := by
        unfold highlight_dict
        exact List.filterMap_cons_some (by rw [if_pos hbt])
      rw [hdict, dictGet_cons]
      by_cases hkey : (t.1, t.2.1) = k
      · have hrestnone : dictGet (highlight_dict grid rest) k = none := by
          apply dictGet_of_no_key
          intro e he
          rcases mem_highlight_dict he with ⟨u, hu, rfl⟩
          intro hcontra
          have hcontra2 : (u.1, u.2.1) = k := hcontra
          apply hkt
          rw [List.mem_map]
          exact ⟨u, hu, by rw [hcontra2, ← hkey]⟩
        rw [hrestnone]
        have hfind : (t.1 == k.1 && t.2.1 == k.2) = true := by
          have e1 : t.1 = k.1 := congrArg Prod.fst hkey
          have e2 : t.2.1 = k.2 := congrArg Prod.snd hkey
          simp [e1, e2]
        have hfc : List.find? (fun u => u.1 == k.1 && u.2.1 == k.2) (t :: rest) =
            some t := List.find?_cons_of_pos rest hfind
        rw [hfc]
        simp [hkey]
      · have hfind : (t.1 == k.1 && t.2.1 == k.2) = false := by
          rw [Bool.and_eq_false_iff]
          by_cases e1 : t.1 = k.1
          · right
            rw [beq_eq_false_iff_ne]
            intro e2
            exact hkey (Prod.ext e1 e2)
          · left
            rw [beq_eq_false_iff_ne]
            exact e1
        have hfc : List.find? (fun u => u.1 == k.1 && u.2.1 == k.2) (t :: rest) =
            List.find? (fun u => u.1 == k.1 && u.2.1 == k.2) rest :=
          List.find?_cons_of_neg rest (by simp [hfind])
        rw [hfc, ← ih hnd']
        cases hdr : dictGet (highlight_dict grid rest) k with
        | some v => rfl
        | none => simp [if_neg hkey]
    · have hdict : highlight_dict grid (t :: rest) = highlight_dict grid rest := by
        unfold highlight_dict
        exact List.filterMap_cons_none (by rw [if_neg hbt])
      have hkey : ¬ (t.1, t.2.1) = k := by
        intro hcontra
        apply hbt
        have e1 : t.1 = k.1 := congrArg Prod.fst hcontra
        have e2 : t.2.1 = k.2 := congrArg Prod.snd hcontra
        rw [e1, e2]
        exact ⟨hk1, hk2, hk3, hk4⟩
      have hfind : (t.1 == k.1 && t.2.1 == k.2) = false := by
        rw [Bool.and_eq_false_iff]
        by_cases e1 : t.1 = k.1
        · right
          rw [beq_eq_false_iff_ne]
          intro e2
          exact hkey (Prod.ext e1 e2)
        · left
          rw [beq_eq_false_iff_ne]
          exact e1
      have hfc : List.find? (fun u => u.1 == k.1 && u.2.1 == k.2) (t :: rest) =
          List.find? (fun u => u.1 == k.1 && u.2.1 == k.2) rest :=
        List.find?_cons_of_neg rest (by simp [hfind])
      rw [hdict, hfc]
      exact ih hnd'

/-- For an in-bounds cell of a rectangular grid, the rendered cell is
the precedence color followed by the grid character and a reset. -/
theorem cellStr_eq_layerColor (grid : List (List Char))
    (hps : List (Int × Int × String)) (bps : List (Int × Int))
    (ri ci : Nat) (ch : Char)
    (hri : ri < grid.length) (hci : ci < (grid.headD []).length)
    (hnodup : (hps.map fun t => (t.1, t.2.1)).Nodup) :
    cellStr (highlight_dict grid hps) bps ri ci ch =
      layerColor hps bps ri ci ++ ch.toString ++ Colors.RESET := by
  have hd : dictGet (highlight_dict grid hps) ((ri : Int), (ci : Int)) =
      (hps.find? fun t => t.1 == (ri : Int) && t.2.1 == (ci : Int)).map
        fun t => t.2.2 :=
    dictGet_highlight_dict grid ((ri : Int), (ci : Int))
      (Int.natCast_nonneg ri)
      (by show (ri : Int) < (grid.length : Int); exact_mod_cast hri)
      (Int.natCast_nonneg ci)
      (by show (ci : Int) < ((grid.headD []).length : Int); exact_mod_cast hci)
      hps hnodup
  unfold cellStr layerColor
  rw [hd]
  cases hf : hps.find? fun t => t.1 == (ri : Int) && t.2.1 == (ci : Int) with
  | none =>
    by_cases hb : ((ri : Int), (ci : Int)) ∈ bps <;> simp [hb]
  | some t => simp

/-- C8: the renderer emits one line per grid row; each cell shows the
grid's character, colored by precedence highlight > border > background
(per-slot color for highlight cells, fixed muted GRAY for border cells,
fixed dim DARK_GRAY otherwise), and every cell's color directive is
self-contained: it ends with a RESET.  Hypotheses: the grid is
rectangular (every row as wide as the first, the Grid data-model
invariant) and HighlightSet is a mapping (no duplicate positions). -/
theorem C8_render_precedence (grid : List (List Char))
    (hps : List (Int × Int × String)) (bps : List (Int × Int))
    (hrect : ∀ row ∈ grid, row.length = (grid.headD []).length)
    (hnodup : (hps.map fun t => (t.1, t.2.1)).Nodup) :
    (display_code_with_time grid hps bps).length = grid.length ∧
    (∀ ri row, grid.get? ri = some row →
      (display_code_with_time grid hps bps).get? ri =
        some (String.join (row.enum.map fun cellp =>
          layerColor hps bps ri cellp.1 ++ cellp.2.toString ++ Colors.RESET))) := by
  constructor
  · unfold display_code_with_time
    rw [List.length_map, List.enum_length]
  · intro ri row hrow
    unfold display_code_with_time
    rw [List.get?_map, List.enum_get?, hrow]
    simp only [Option.map_some']
    congr 1
    congr 1
    apply List.map_congr_left
    intro cellp hcell
    obtain ⟨a, b⟩ := cellp
    have h2 : row.get? a = some b := List.mem_enum_iff_get?.mp hcell
    rcases List.get?_eq_some.mp h2 with ⟨haw, _⟩
    have hgm : ri < grid.length ∧ row ∈ grid := by
      rcases List.get?_eq_some.mp hrow with ⟨h, hg⟩
      refine ⟨h, ?_⟩
      rw [← hg]
      exact List.get_mem grid ri h
    have hrw : row.length = (grid.headD []).length := hrect row hgm.2
    exact cellStr_eq_layerColor grid hps bps ri a b hgm.1
      (by rw [← hrw]; exact haw) hnodup

/-- C8 witness: a 2 x 2 grid with one highlight cell at (0, 1) and one
border cell at (1, 0). -/
theorem C8_witness :
    (∀ row ∈ [['a', 'b'], ['c', 'd']],
      row.length = ([['a', 'b'], ['c', 'd']].headD []).length) ∧
    (([((0 : Int), (1 : Int), "H")].map fun t => (t.1, t.2.1)).Nodup) ∧
    ((display_code_with_time [['a', 'b'], ['c', 'd']]
        [((0 : Int), (1 : Int), "H")] [((1 : Int), (0 : Int))]).length =
      ([['a', 'b'], ['c', 'd']] : List (List Char)).length ∧
     (∀ ri row, ([['a', 'b'], ['c', 'd']] : List (List Char)).get? ri = some row →
       (display_code_with_time [['a', 'b'], ['c', 'd']]
          [((0 : Int), (1 : Int), "H")] [((1 : Int), (0 : Int))]).get? ri =
         some (String.join (row.enum.map fun cellp =>
           layerColor [((0 : Int), (1 : Int), "H")] [((1 : Int), (0 : Int))]
             ri cellp.1 ++ cellp.2.toString ++ Colors.RESET)))) :=
  ⟨by decide, by decide,
    C8_render_precedence [['a', 'b'], ['c', 'd']]
      [((0 : Int), (1 : Int), "H")] [((1 : Int), (0 : Int))]
      (by decide) (by decide)⟩

/-! ## Lemmas for the adaptation controller -/

/-- Non-empty filler always builds a grid. -/
theorem create_display_grid_isSome {source : List Char} (hs : source ≠ [])
    (height width : Nat) :
    (create_display_grid source height width).isSome = true := by
  obtain ⟨e, hfr, _⟩ := fillRow_stream hs (height * width) (height * width) 0
    (Nat.zero_le _) (le_refl _)
  obtain ⟨g, hg, _, _, _⟩ := fillGrid_exists height 0 _ e hfr
  have hc : create_display_grid source height width = some g := hg
  rw [hc]
  rfl

/-- update_display_parameters succeeds on non-empty filler, and the
fields it produces. -/
theorem update_display_parameters_spec (st : ClockState) (filler : List Char)
    (query : Option (Nat × Nat)) (hfill : filler ≠ []) :
    ∃ st1, update_display_parameters st filler query = some st1 ∧
      st1.width = (get_terminal_size query).1 - 2 ∧
      st1.height = (get_terminal_size query).2 - 2 ∧
      create_display_grid filler st1.height st1.width = some st1.grid ∧
      st1.terminal_resized = st.terminal_resized ∧
      st1.supports_resize_signal = st.supports_resize_signal := by
  rcases Option.isSome_iff_exists.mp
    (create_display_grid_isSome hfill ((get_terminal_size query).2 - 2)
      ((get_terminal_size query).1 - 2)) with ⟨g, hg⟩
  refine ⟨ClockState.mk filler g ((get_terminal_size query).1 - 2)
      ((get_terminal_size query).2 - 2) st.terminal_resized
      st.supports_resize_signal, ?_, ?_, ?_, ?_, ?_, ?_⟩ <;>
    simp [update_display_parameters, hg]

/-- An inadequate size sends tickRender down the warning path. -/
theorem tickRender_inadequate (st2 : ClockState) (query : Option (Nat × Nat))
    (now : List Char) (system : String) (dr : Bool)
    (hinadq : is_terminal_size_adequate query = false) :
    tickRender st2 query now system dr =
      some (st2, TickOutput.warning
        (display_size_warning_output (get_terminal_size query).1
          (get_terminal_size query).2 min_width min_height system
          st2.supports_resize_signal), dr) := by
  unfold tickRender
  rw [hinadq]
  rfl

/-- A successful tickRender keeps the settled state and reports the
rebuild flag it was given. -/
theorem tickRender_state (st2 : ClockState) (query : Option (Nat × Nat))
    (now : List Char) (system : String) (dr : Bool)
    (r : ClockState × TickOutput × Bool)
    (h : tickRender st2 query now system dr = some r) :
    r.1 = st2 ∧ r.2.2 = dr := by
  unfold tickRender at h
  split_ifs at h with hadq
  · split at h
    next hl bd heq1 heq2 =>
      simp only [Option.some_inj] at h
      rw [← h]
      exact ⟨rfl, rfl⟩
    next => cases h
  · simp only [Option.some_inj] at h
    rw [← h]
    exact ⟨rfl, rfl⟩

/-- tickRender succeeds on a supported time string of at most 8
characters. -/
theorem tickRender_isSome (st2 : ClockState) (query : Option (Nat × Nat))
    (now : List Char) (system : String) (dr : Bool)
    (hnow : ∀ c ∈ now, (ASCII_PATTERNS c).isSome = true)
    (hlen : now.length ≤ 8) :
    (tickRender st2 query now system dr).isSome = true := by
  unfold tickRender
  split_ifs with hadq
  · obtain ⟨hl, hhl⟩ := Option.isSome_iff_exists.mp
      (get_highlight_positions_isSome hnow hlen)
    obtain ⟨bd, hbd⟩ := Option.isSome_iff_exists.mp
      (get_border_positions_isSome hnow)
    rw [hhl, hbd]
    rfl
  · rfl

/-- On an inadequate tick the loop emits the size warning built from
the fallback-corrected terminal size; its supports flag is the
state's. -/
theorem tick_inadequate (st : ClockState) (query : Option (Nat × Nat))
    (now filler : List Char) (system : String) (signalArrived : Bool)
    (hfill : filler ≠ [])
    (hinadq : is_terminal_size_adequate query = false) :
    (tick st query now filler system signalArrived).isSome = true ∧
    isWarning (tickOutput (tick st query now filler system signalArrived)) = true ∧
    (∀ r, tick st query now filler system signalArrived = some r →
      r.2.1 = TickOutput.warning (display_size_warning_output
        (get_terminal_size query).1 (get_terminal_size query).2
        min_width min_height system st.supports_resize_signal)) := by
  have key : ∃ st2 dr, tick st query now filler system signalArrived =
      some (st2, TickOutput.warning (display_size_warning_output
        (get_terminal_size query).1 (get_terminal_size query).2
        min_width min_height system st.supports_resize_signal), dr) := by
    unfold tick
    by_cases hdo : ((if signalArrived then { st with terminal_resized := true }
        else st).terminal_resized ||
        !(if signalArrived then { st with terminal_resized := true }
          else st).supports_resize_signal) = true
    · rw [if_pos hdo]
      obtain ⟨st1, hupd, hw, hh, hg, hflag1, hsup1⟩ :=
        update_display_parameters_spec
          (if signalArrived then { st with terminal_resized := true } else st)
          filler query hfill
      simp only [hupd]
      rw [tickRender_inadequate _ _ _ _ _ hinadq]
      refine ⟨{ st1 with terminal_resized := false }, true, ?_⟩
      have hs2 : ({ st1 with terminal_resized := false } :
          ClockState).supports_resize_signal = st.supports_resize_signal := by
        show st1.supports_resize_signal = st.supports_resize_signal
        rw [hsup1]
        cases signalArrived <;> rfl
      rw [hs2]
    · rw [if_neg hdo, tickRender_inadequate _ _ _ _ _ hinadq]
      refine ⟨(if signalArrived then { st with terminal_resized := true }
        else st), false, ?_⟩
      have hs2 : (if signalArrived then { st with terminal_resized := true }
          else st).supports_resize_signal = st.supports_resize_signal := by
        cases signalArrived <;> rfl
      rw [hs2]
  obtain ⟨st2, dr, hkey⟩ := key
  refine ⟨by rw [hkey]; rfl, by rw [hkey]; rfl, ?_⟩
  intro r hr
  rw [hkey] at hr
  simp only [Option.some_inj] at hr
  rw [← hr]

/-- C10: whenever the terminal size query fails, the fallback (80, 24)
is used; since 80 < 100 the adequacy check returns false, so a tick
with a failed query can never render the clock: it always takes the
size-warning path. -/
theorem C10_failed_query_warns (st : ClockState) (now filler : List Char)
    (system : String) (signalArrived : Bool) (hfill : filler ≠ []) :
    get_terminal_size none = (80, 24) ∧
    is_terminal_size_adequate none = false ∧
    (tick st none now filler system signalArrived).isSome = true ∧
    isWarning (tickOutput (tick st none now filler system signalArrived)) = true := by
  have h := tick_inadequate st none now filler system signalArrived hfill (by rfl)
  exact ⟨rfl, rfl, h.1, h.2.1⟩

/-- C10 witness: a failed size query on a small concrete state. -/
theorem C10_witness :
    (['a'] : List Char) ≠ [] ∧
    (get_terminal_size none = (80, 24) ∧
     is_terminal_size_adequate none = false ∧
     (tick ⟨['a'], [['a']], 1, 1, false, true⟩ none ['1'] ['a'] "Linux"
       false).isSome = true ∧
     isWarning (tickOutput (tick ⟨['a'], [['a']], 1, 1, false, true⟩ none
       ['1'] ['a'] "Linux" false)) = true) :=
  ⟨by decide,
    C10_failed_query_warns ⟨['a'], [['a']], 1, 1, false, true⟩ ['1'] ['a']
      "Linux" false (by decide)⟩

/-! ## Substring lemmas for the warning text -/

theorem leadsWith_append (s b : List Char) : leadsWith s (s ++ b) = true := by
  induction s with
  | nil => rfl
  | cons a as ih =>
    show (a == a && leadsWith as (as ++ b)) = true
    simp [ih]

theorem containsSeq_append_left (a : List Char) (n h : List Char)
    (hh : containsSeq n h = true) : containsSeq n (a ++ h) = true := by
  induction a with
  | nil => simpa using hh
  | cons x xs ih =>
    show (leadsWith n (x :: (xs ++ h)) || containsSeq n (xs ++ h)) = true
    rw [ih]
    simp

theorem containsSeq_middle (a s b : List Char) :
    containsSeq s (a ++ (s ++ b)) = true := by
  apply containsSeq_append_left
  cases s with
  | nil =>
    cases b with
    | nil => rfl
    | cons y ys => rfl
  | cons x xs =>
    show (leadsWith (x :: xs) ((x :: xs) ++ b) || _) = true
    rw [leadsWith_append]
    rfl

theorem strContains_middle (a s b : String) :
    strContains (a ++ (s ++ b)) s = true := by
  unfold strContains
  have he : (a ++ (s ++ b)).toList = a.toList ++ (s.toList ++ b.toList) := rfl
  rw [he]
  exact containsSeq_middle _ _ _

/-- pyCenter keeps the centered text intact as a contiguous block. -/
theorem pyCenter_decomp (s : String) (w : Nat) :
    ∃ x y, pyCenter s w = x ++ (s ++ y) := by
  unfold pyCenter
  split_ifs with h h2
  · exact ⟨"", "", by rw [String.append_empty]; rfl⟩
  · exact ⟨_, _, by rw [String.append_assoc]⟩
  · exact ⟨_, _, by rw [String.append_assoc]⟩

/-- Any line of the warning block is printed as color ++ centered line
++ reset, so the line's text occurs contiguously in the printed text. -/
theorem strContains_printed (color line reset : String) :
    strContains (color ++ pyCenter line w ++ reset) line = true := by
  obtain ⟨x, y, hxy⟩ := pyCenter_decomp line w
  have he : color ++ pyCenter line w ++ reset =
      (color ++ x) ++ (line ++ (y ++ reset)) := by
    rw [hxy]
    simp only [String.append_assoc]
  rw [he]
  exact strContains_middle _ _ _

theorem warningLines_get3 (c l mw mh : Nat) (system : String) (b : Bool) :
    (warningLines c l mw mh system b).get? 3 =
      some ("Current size: " ++ toString c ++ " x " ++ toString l) := rfl

theorem warningLines_get4 (c l mw mh : Nat) (system : String) (b : Bool) :
    (warningLines c l mw mh system b).get? 4 =
      some ("Required minimum: " ++ toString mw ++ " x " ++ toString mh) := rfl

theorem warningLines_length (c l mw mh : Nat) (system : String) (b : Bool) :
    (warningLines c l mw mh system b).length = if b then 14 else 17 := by
  cases b <;> rfl

/-- A warning line whose print row fits on the terminal is printed,
centered and colored. -/
theorem mem_display_size_warning_output (cols lines mw mh : Nat)
    (system : String) (b : Bool) (i : Nat) (line : String)
    (hget : (warningLines cols lines mw mh system b).get? i = some line)
    (hlt : max 1 (lines / 2 -
      (warningLines cols lines mw mh system b).length / 2) + i < lines) :
    (max 1 (lines / 2 -
        (warningLines cols lines mw mh system b).length / 2) + i,
      warnLineColor line ++ pyCenter line cols ++ Colors.RESET) ∈
      display_size_warning_output cols lines mw mh system b := by
  unfold display_size_warning_output
  apply List.mem_filterMap.mpr
  refine ⟨(i, line), List.mem_enum_iff_get?.mpr hget, ?_⟩
  show (if max 1 (lines / 2 -
        (warningLines cols lines mw mh system b).length / 2) + i < lines then
      some (max 1 (lines / 2 -
          (warningLines cols lines mw mh system b).length / 2) + i,
        warnLineColor line ++ pyCenter line cols ++ Colors.RESET)
    else none) = some (max 1 (lines / 2 -
        (warningLines cols lines mw mh system b).length / 2) + i,
      warnLineColor line ++ pyCenter line cols ++ Colors.RESET)
  rw [if_pos hlt]

/-- When the terminal has at least 6 rows, the warning display includes
its current-size and required-minimum lines. -/
theorem warning_mentions (c l : Nat) (system : String) (b : Bool)
    (hl6 : 6 ≤ l) :
    (∃ p ∈ display_size_warning_output c l min_width min_height system b,
      strContains p.2 ("Current size: " ++ toString c ++ " x " ++ toString l) =
        true) ∧
    (∃ p ∈ display_size_warning_output c l min_width min_height system b,
      strContains p.2 ("Required minimum: " ++ toString min_width ++ " x " ++
        toString min_height) = true) := by
  have hlen : (warningLines c l min_width min_height system b).length = 14 ∨
      (warningLines c l min_width min_height system b).length = 17 := by
    rw [warningLines_length]
    cases b
    · right
      rfl
    · left
      rfl
  have h4 : max 1 (l / 2 -
      (warningLines c l min_width min_height system b).length / 2) + 4 < l := by
    rcases hlen with h | h <;> rw [h] <;> omega
  have h3 : max 1 (l / 2 -
      (warningLines c l min_width min_height system b).length / 2) + 3 < l := by
    omega
  constructor
  · exact ⟨_, mem_display_size_warning_output c l min_width min_height system b
      3 _ (warningLines_get3 c l min_width min_height system b) h3,
      strContains_printed _ _ _⟩
  · exact ⟨_, mem_display_size_warning_output c l min_width min_height system b
      4 _ (warningLines_get4 c l min_width min_height system b) h4,
      strContains_printed _ _ _⟩

/-- C6 counterexample: on the very first tick (resize flag set at
startup) with terminal size (79, 24), the tick IS in the warning state
-- but a grid of 22 rows is built anyway, refuting "no grid is built".
(update_display_parameters runs before the adequacy check whenever the
resize flag is set, src/clock.py lines 546-554.) -/
theorem C6_counterexample :
    is_terminal_size_adequate (some (79, 24)) = false ∧
    isWarning (tickOutput (tick ⟨[], [], 0, 0, true, true⟩ (some (79, 24))
      ['1', '2', ':', '3', '0', ':', '4', '5'] ['a'] "Linux" false)) = true ∧
    (tickState (tick ⟨[], [], 0, 0, true, true⟩ (some (79, 24))
      ['1', '2', ':', '3', '0', ':', '4', '5'] ['a'] "Linux" false)).map
      (fun s => s.grid.length) = some 22 ∧
    (22 : Nat) ≠ 0 := by
  refine ⟨rfl, rfl, ?_, by decide⟩
  rfl

/-- C6 amended: on every tick in which the terminal size is below the
minimums, the output is the centered size warning and no digits are
rendered; once the terminal has at least 6 rows the warning includes
its "Current size: c x l" and "Required minimum: 100 x 25" lines.
(The grid, however, may still be rebuilt on such a tick -- it is
rebuilt before the adequacy check whenever the resize flag is set or
resize signaling is unsupported -- it is merely not used.) -/
theorem C6_inadequate_warning (st : ClockState) (c l : Nat)
    (now filler : List Char) (system : String) (signalArrived : Bool)
    (hfill : filler ≠ [])
    (hsize : c < min_width ∨ l < min_height)
    (hl6 : 6 ≤ l) :
    (tick st (some (c, l)) now filler system signalArrived).isSome = true ∧
    isWarning (tickOutput
      (tick st (some (c, l)) now filler system signalArrived)) = true ∧
    (∀ r, tick st (some (c, l)) now filler system signalArrived = some r →
      r.2.1 = TickOutput.warning (display_size_warning_output c l
        min_width min_height system st.supports_resize_signal)) ∧
    (∃ p ∈ display_size_warning_output c l min_width min_height system
        st.supports_resize_signal,
      strContains p.2 ("Current size: " ++ toString c ++ " x " ++ toString l) =
        true) ∧
    (∃ p ∈ display_size_warning_output c l min_width min_height system
        st.supports_resize_signal,
      strContains p.2 ("Required minimum: " ++ toString min_width ++ " x " ++
        toString min_height) = true) := by
  have hinadq : is_terminal_size_adequate (some (c, l)) = false := by
    unfold is_terminal_size_adequate get_terminal_size min_width min_height
    simp only [Bool.and_eq_false_iff, decide_eq_false_iff_not]
    unfold min_width min_height at hsize
    omega
  have h := tick_inadequate st (some (c, l)) now filler system signalArrived
    hfill hinadq
  have hm := warning_mentions c l system st.supports_resize_signal hl6
  exact ⟨h.1, h.2.1, h.2.2, hm.1, hm.2⟩

/-- C6 amended witness: the scenario, terminal (79, 24) against
minimums (100, 25). -/
theorem C6_witness :
    (['a'] : List Char) ≠ [] ∧ (79 < min_width ∨ 24 < min_height) ∧ 6 ≤ 24 ∧
    ((tick ⟨['a'], [['a']], 1, 1, false, true⟩ (some (79, 24)) ['1'] ['a']
       "Linux" true).isSome = true ∧
     isWarning (tickOutput (tick ⟨['a'], [['a']], 1, 1, false, true⟩
       (some (79, 24)) ['1'] ['a'] "Linux" true)) = true ∧
     (∀ r, tick ⟨['a'], [['a']], 1, 1, false, true⟩ (some (79, 24)) ['1'] ['a']
         "Linux" true = some r →
       r.2.1 = TickOutput.warning (display_size_warning_output 79 24
         min_width min_height "Linux"
         (⟨['a'], [['a']], 1, 1, false, true⟩ : ClockState).supports_resize_signal)) ∧
     (∃ p ∈ display_size_warning_output 79 24 min_width min_height "Linux"
         (⟨['a'], [['a']], 1, 1, false, true⟩ : ClockState).supports_resize_signal,
       strContains p.2 ("Current size: " ++ toString 79 ++ " x " ++ toString 24) =
         true) ∧
     (∃ p ∈ display_size_warning_output 79 24 min_width min_height "Linux"
         (⟨['a'], [['a']], 1, 1, false, true⟩ : ClockState).supports_resize_signal,
       strContains p.2 ("Required minimum: " ++ toString min_width ++ " x " ++
         toString min_height) = true)) :=
  ⟨by decide, by decide, by decide,
    C6_inadequate_warning ⟨['a'], [['a']], 1, 1, false, true⟩ 79 24 ['1'] ['a']
      "Linux" true (by decide) (by decide) (by decide)⟩

/-- C9: with the resize notification available (supports_resize_signal)
and the flag clear, a tick on which the resize signal arrived rebuilds
the display exactly once: it recomputes width and height from the
current terminal size, rebuilds the grid from them, and clears the
flag; a tick without a signal performs no rebuild and leaves the whole
state -- grid included -- unchanged, recomputing only the
time-dependent highlight/border layers. -/
theorem C9_resize_rebuilds_once (st : ClockState) (query : Option (Nat × Nat))
    (now filler : List Char) (system : String)
    (hsup : st.supports_resize_signal = true)
    (hflag : st.terminal_resized = false)
    (hfill : filler ≠ [])
    (hnow : ∀ c ∈ now, (ASCII_PATTERNS c).isSome = true)
    (hlen : now.length ≤ 8) :
    (tick st query now filler system true).isSome = true ∧
    (∀ r, tick st query now filler system true = some r →
      r.2.2 = true ∧ r.1.terminal_resized = false ∧
      r.1.supports_resize_signal = true ∧
      r.1.width = (get_terminal_size query).1 - 2 ∧
      r.1.height = (get_terminal_size query).2 - 2 ∧
      create_display_grid filler r.1.height r.1.width = some r.1.grid) ∧
    (tick st query now filler system false).isSome = true ∧
    (∀ r, tick st query now filler system false = some r →
      r.2.2 = false ∧ r.1 = st) := by
  obtain ⟨st1, hupd, hw, hh, hg, hflag1, hsup1⟩ :=
    update_display_parameters_spec { st with terminal_resized := true }
      filler query hfill
  have e0 : tick st query now filler system true =
      match update_display_parameters { st with terminal_resized := true }
          filler query with
      | none => none
      | some st1 =>
        tickRender { st1 with terminal_resized := false } query now system
          true := rfl
  have e0some : tick st query now filler system true =
      tickRender { st1 with terminal_resized := false } query now system
        true := by
    rw [e0]
    simp only [hupd]
  have hC : ¬((if false then { st with terminal_resized := true }
      else st).terminal_resized ||
      !(if false then { st with terminal_resized := true }
        else st).supports_resize_signal) = true := by
    show ¬(st.terminal_resized || !st.supports_resize_signal) = true
    rw [hflag, hsup]
    simp
  have e1 : tick st query now filler system false =
      tickRender st query now system false := by
    unfold tick
    rw [if_neg hC]
    rfl
  refine ⟨?_, ?_, ?_, ?_⟩
  · rw [e0some]
    exact tickRender_isSome _ _ _ _ _ hnow hlen
  · intro r hr
    rw [e0some] at hr
    obtain ⟨hr1, hr2⟩ := tickRender_state _ _ _ _ _ _ hr
    refine ⟨hr2, ?_, ?_, ?_, ?_, ?_⟩
    · rw [hr1]
    · rw [hr1]
      show st1.supports_resize_signal = true
      rw [hsup1]
      exact hsup
    · rw [hr1]
      exact hw
    · rw [hr1]
      exact hh
    · rw [hr1]
      exact hg
  · rw [e1]
    exact tickRender_isSome _ _ _ _ _ hnow hlen
  · intro r hr
    rw [e1] at hr
    obtain ⟨hr1, hr2⟩ := tickRender_state _ _ _ _ _ _ hr
    exact ⟨hr2, hr1⟩

/-- C9 witness: a clear-flag state with resize signaling available; the
signal tick rebuilds for the new size, the signal-free tick does not. -/
theorem C9_witness :
    (⟨['a'], [['a']], 118, 28, false, true⟩ : ClockState).supports_resize_signal =
      true ∧
    (⟨['a'], [['a']], 118, 28, false, true⟩ : ClockState).terminal_resized =
      false ∧
    (['a', 'b'] : List Char) ≠ [] ∧
    (∀ c ∈ ['1'], (ASCII_PATTERNS c).isSome = true) ∧
    (['1'] : List Char).length ≤ 8 ∧
    ((tick ⟨['a'], [['a']], 118, 28, false, true⟩ (some (150, 10)) ['1']
        ['a', 'b'] "Linux" true).isSome = true ∧
     (∀ r, tick ⟨['a'], [['a']], 118, 28, false, true⟩ (some (150, 10)) ['1']
         ['a', 'b'] "Linux" true = some r →
       r.2.2 = true ∧ r.1.terminal_resized = false ∧
       r.1.supports_resize_signal = true ∧
       r.1.width = (get_terminal_size (some (150, 10))).1 - 2 ∧
       r.1.height = (get_terminal_size (some (150, 10))).2 - 2 ∧
       create_display_grid ['a', 'b'] r.1.height r.1.width = some r.1.grid) ∧
     (tick ⟨['a'], [['a']], 118, 28, false, true⟩ (some (150, 10)) ['1']
        ['a', 'b'] "Linux" false).isSome = true ∧
     (∀ r, tick ⟨['a'], [['a']], 118, 28, false, true⟩ (some (150, 10)) ['1']
         ['a', 'b'] "Linux" false = some r →
       r.2.2 = false ∧ r.1 = ⟨['a'], [['a']], 118, 28, false, true⟩)) :=
  ⟨by decide, by decide, by decide, by decide, by decide,
    C9_resize_rebuilds_once ⟨['a'], [['a']], 118, 28, false, true⟩
      (some (150, 10)) ['1'] ['a', 'b'] "Linux" (by decide) (by decide)
      (by decide) (by decide) (by decide)⟩

end AsciiClock
